import Mathlib

/-!
Verification development for the SOILWAT daily soil-water and soil-temperature
simulator (sources: SW_Flow_lib.c, SW_Markov.c).

The C code is embedded shallowly over exact rational arithmetic:
* C `double` values become `ℚ`;
* C arrays become total functions `ℕ → ℚ` (the C code indexes past the end of
  some arrays; a total function models whatever value sits in that memory);
* in-place mutation becomes explicit state passing;
* the comparison macros of generic.h (GT/LT/GE/LE/EQ/ZRO), which are not part
  of these sources, are modelled from the spec as exact comparisons
  (the spec: at boundaries the ≤ / < convention is followed exactly);
* library functions that are not part of these sources (exp, sqrt, the power
  helper powe, the interpolation helper of generic.c, and SWCbulk2SWPmatric of
  SW_SoilWater.c) are parameters of the embedding.
-/

namespace SoilWat

/-- Update a function-modelled array at one index. -/
def upd (f : ℕ → ℚ) (i : ℕ) (x : ℚ) : ℕ → ℚ :=
  fun j => if j = i then x else f j

/-- Update a function-modelled two-dimensional array at one entry. -/
def upd2 (m : ℕ → ℕ → ℚ) (i j : ℕ) (x : ℚ) : ℕ → ℕ → ℚ :=
  fun a b => if a = i ∧ b = j then x else m a b

@[simp] theorem upd_same (f : ℕ → ℚ) (i : ℕ) (x : ℚ) : upd f i x i = x := by
  simp [upd]

theorem upd_ne (f : ℕ → ℚ) {i j : ℕ} (x : ℚ) (h : j ≠ i) : upd f i x j = f j := by
  simp [upd, h]

/-- Generic invariant preservation along a left fold. -/
theorem foldl_inv {α σ : Type} (P : σ → Prop) (f : σ → α → σ) :
    ∀ (l : List α), (∀ s a, a ∈ l → P s → P (f s a)) → ∀ s, P s → P (l.foldl f s) := by
  intro l
  induction l with
  | nil => intro _ s hs; simpa using hs
  | cons a t ih =>
    intro hstep s hs
    simp only [List.foldl_cons]
    exact ih (fun s b hb => hstep s b (List.mem_cons_of_mem a hb)) (f s a)
      (hstep s a (List.mem_cons_self a t) hs)

/- ================= InterceptionLayer (SW_Flow_lib.c) ================= -/

/-- Embeds `grass_intercepted_water` of SW_Flow_lib.c.  The pool cap
MAX_WINTSTCR lives in SW_Defines.h (not among these sources) and is a
parameter.  Returns the pair (pptleft, wintgrass). -/
def grass_intercepted_water (maxWintstcr ppt vegcov scale a b c d : ℚ) : ℚ × ℚ :=
  if vegcov > 0 ∧ ppt > 0 then
    let intcpt := b * vegcov + a
    let slope := d * vegcov + c
    let w0 := (intcpt + slope * ppt) * scale
    let w1 := min w0 ppt
    let w2 := min w1 maxWintstcr
    (max (ppt - w2) 0, w2)
  else
    (ppt, 0)

/-- Embeds `shrub_intercepted_water` of SW_Flow_lib.c. -/
def shrub_intercepted_water (maxWintstcr ppt vegcov scale a b c d : ℚ) : ℚ × ℚ :=
  if vegcov > 0 ∧ ppt > 0 then
    let intcpt := b * vegcov + a
    let slope := d * vegcov + c
    let w0 := (intcpt + slope * ppt) * scale
    let w1 := min w0 ppt
    let w2 := min w1 maxWintstcr
    (max (ppt - w2) 0, w2)
  else
    (ppt, 0)

/-- Embeds `tree_intercepted_water` of SW_Flow_lib.c (cap MAX_WINTFOR). -/
def tree_intercepted_water (maxWintfor ppt lai scale a b c d : ℚ) : ℚ × ℚ :=
  if lai > 0 ∧ ppt > 0 then
    let intcpt := b * lai + a
    let slope := d * lai + c
    let w0 := (intcpt + slope * ppt) * scale
    let w1 := min w0 ppt
    let w2 := min w1 maxWintfor
    (max (ppt - w2) 0, w2)
  else
    (ppt, 0)

/-- Embeds `forb_intercepted_water` of SW_Flow_lib.c. -/
def forb_intercepted_water (maxWintstcr ppt vegcov scale a b c d : ℚ) : ℚ × ℚ :=
  if vegcov > 0 ∧ ppt > 0 then
    let intcpt := b * vegcov + a
    let slope := d * vegcov + c
    let w0 := (intcpt + slope * ppt) * scale
    let w1 := min w0 ppt
    let w2 := min w1 maxWintstcr
    (max (ppt - w2) 0, w2)
  else
    (ppt, 0)

/-- Embeds `litter_intercepted_water` of SW_Flow_lib.c (cap MAX_WINTLIT).
The litter routine reads and writes pptleft in place; input pptleft is the
first argument of the returned pair. -/
def litter_intercepted_water (maxWintlit pptleft blitter scale a b c d : ℚ) : ℚ × ℚ :=
  if blitter = 0 then
    (pptleft, 0)
  else if pptleft > 0 then
    let intcpt := b * blitter + a
    let slope := d * blitter + c
    let w0 := (intcpt + slope * pptleft) * scale
    let w1 := min pptleft w0
    let w2 := min w1 maxWintlit
    (max (pptleft - w2) 0, w2)
  else
    (0, 0)

/- ================= SoilWaterEngine (SW_Flow_lib.c) ================= -/

/-- State touched by the two infiltration routines: the soil-water array, the
per-layer drain array, the deep-drainage scalar and the standing-water pool. -/
structure FlowSt where
  swc : ℕ → ℚ
  drain : ℕ → ℚ
  drainout : ℚ
  standingWater : ℚ

/-- One iteration of the saturated-percolation loop of `infiltrate_water_high`
(SW_Flow_lib.c lines 352-370) for layer index i. -/
def satPercStep (frozen : ℕ → Bool) (swcfc imperm : ℕ → ℚ) (nlyrs : ℕ)
    (s : FlowSt) (i : ℕ) : FlowSt :=
  let ksat_rel : ℚ := if frozen i then 1/100 else 1
  let d : ℚ := max 0 (ksat_rel * (1 - imperm i) * (s.swc i - swcfc i))
  if i < nlyrs - 1 then
    { s with drain := upd s.drain i d,
             swc := upd (upd s.swc (i+1) (s.swc (i+1) + d)) i (s.swc i - d) }
  else
    { s with drain := upd s.drain i d, drainout := d,
             swc := upd s.swc i (s.swc i - d) }

/-- Saturated-percolation loop of `infiltrate_water_high`: i = 0 .. nlyrs-1. -/
def satPerc (frozen : ℕ → Bool) (swcfc imperm : ℕ → ℚ) (nlyrs : ℕ)
    (s : FlowSt) : FlowSt :=
  (List.range nlyrs).foldl (satPercStep frozen swcfc imperm nlyrs) s

/-- Body of the upward over-saturation push of `infiltrate_water_high`
(SW_Flow_lib.c lines 373-384) at index j; at j = 0 the excess is ASSIGNED to
the standing-water pool. -/
def pushStepHigh (swcsat : ℕ → ℚ) (s : FlowSt) (j : ℕ) : FlowSt :=
  if s.swc j > swcsat j then
    let push := s.swc j - swcsat j
    let s1 : FlowSt := { s with swc := upd s.swc j (s.swc j - push) }
    if 0 < j then
      { s1 with drain := upd s1.drain (j-1) (s1.drain (j-1) - push),
                swc := upd s1.swc (j-1) (s1.swc (j-1) + push) }
    else
      { s1 with standingWater := push }
  else s

/-- Descending sweep j = k, k-1, ..., 0 of the high-infiltration push loop.
The C loop is `for (j = nlyrs; j >= 0; j--)`: it STARTS AT j = nlyrs, one past
the last layer, so the full sweep below is invoked with k = nlyrs. -/
def pushHighGo (swcsat : ℕ → ℚ) : ℕ → FlowSt → FlowSt
  | 0, s => pushStepHigh swcsat s 0
  | k+1, s => pushHighGo swcsat k (pushStepHigh swcsat s (k+1))

/-- Entry step of `infiltrate_water_high` (SW_Flow_lib.c lines 348-349):
add pptleft to layer 0 and ASSIGN 0 to the standing-water pool. -/
def highEntry (pptleft : ℚ) (s : FlowSt) : FlowSt :=
  { s with swc := upd s.swc 0 (s.swc 0 + pptleft), standingWater := 0 }

/-- Embeds `infiltrate_water_high` of SW_Flow_lib.c (lines 318-385),
composed of the entry step, the percolation loop and the upward sweep. -/
def infiltrate_water_high (frozen : ℕ → Bool) (swcfc swcsat imperm : ℕ → ℚ)
    (pptleft : ℚ) (nlyrs : ℕ) (s : FlowSt) : FlowSt :=
  pushHighGo swcsat nlyrs (satPerc frozen swcfc imperm nlyrs (highEntry pptleft s))

/-- State of `remove_from_soil`: soil water, per-layer removal quantities and
the actual-evapotranspiration accumulator. -/
structure RemoveSt where
  swc : ℕ → ℚ
  qty : ℕ → ℚ
  aet : ℚ

/-- Embeds `remove_from_soil` of SW_Flow_lib.c (lines 982-1035).  The
soil-water-potential function SWCbulk2SWPmatric lives in SW_SoilWater.c (not
among these sources) and is the parameter swpf (layer index, swc value).
swpfrac is computed from the incoming soil water; frozen layers are skipped. -/
def remove_from_soil (swpf : ℕ → ℚ → ℚ) (frozen : ℕ → Bool)
    (coeff swcmin : ℕ → ℚ) (rate : ℚ) (nlyrs : ℕ) (s : RemoveSt) : RemoveSt :=
  let swpfrac : ℕ → ℚ := fun i => coeff i / swpf i (s.swc i)
  let sumswp : ℚ := ((List.range nlyrs).map swpfrac).sum
  if sumswp = 0 then s
  else
    (List.range nlyrs).foldl
      (fun t i =>
        if frozen i then t
        else
          let q := swpfrac i / sumswp * rate
          let swc_avail := max 0 (t.swc i - swcmin i)
          let qy := min q swc_avail
          { swc := upd t.swc i (t.swc i - qy),
            qty := upd t.qty i qy,
            aet := t.aet + qy }) s

/-- One iteration of the unsaturated-percolation loop of
`infiltrate_water_low` (SW_Flow_lib.c lines 1081-1105) for layer i.  The C
exp call is the parameter fexp (math library, not among these sources). -/
def unsatPercStep (fexp : ℚ → ℚ) (frozen : ℕ → Bool)
    (swcfc width swcmin imperm : ℕ → ℚ) (sdrainpar sdraindpth : ℚ)
    (nlyrs : ℕ) (s : FlowSt) (i : ℕ) : FlowSt :=
  let d : ℚ :=
    if s.swc i ≤ swcmin i then 0
    else
      let kunsat_rel : ℚ := if frozen i then 1/100 else 1
      let swc_avail := max 0 (s.swc i - swcmin i)
      let drainpot :=
        if s.swc i > swcfc i then sdrainpar
        else sdrainpar * fexp ((s.swc i - swcfc i) * sdraindpth / width i)
      kunsat_rel * (1 - imperm i) * min swc_avail drainpot
  let s1 : FlowSt := { s with drain := upd s.drain i (s.drain i + d) }
  if i < nlyrs - 1 then
    { s1 with swc := upd (upd s1.swc (i+1) (s1.swc (i+1) + d)) i (s1.swc i - d) }
  else
    let drainlw := max d 0
    { s1 with drainout := s1.drainout + drainlw,
              swc := upd s1.swc i (s1.swc i - drainlw) }

/-- Unsaturated-percolation loop of `infiltrate_water_low`: i = 0..nlyrs-1. -/
def unsatPerc (fexp : ℚ → ℚ) (frozen : ℕ → Bool)
    (swcfc width swcmin imperm : ℕ → ℚ) (sdrainpar sdraindpth : ℚ)
    (nlyrs : ℕ) (s : FlowSt) : FlowSt :=
  (List.range nlyrs).foldl
    (unsatPercStep fexp frozen swcfc width swcmin imperm sdrainpar sdraindpth nlyrs) s

/-- Body of the upward over-saturation push of `infiltrate_water_low`
(SW_Flow_lib.c lines 1108-1119); at j = 0 the excess is ADDED to the
standing-water pool. -/
def pushStepLow (swcsat : ℕ → ℚ) (s : FlowSt) (j : ℕ) : FlowSt :=
  if s.swc j > swcsat j then
    let push := s.swc j - swcsat j
    let s1 : FlowSt := { s with swc := upd s.swc j (s.swc j - push) }
    if 0 < j then
      { s1 with drain := upd s1.drain (j-1) (s1.drain (j-1) - push),
                swc := upd s1.swc (j-1) (s1.swc (j-1) + push) }
    else
      { s1 with standingWater := s1.standingWater + push }
  else s

/-- Descending sweep j = k .. 0 of the low-infiltration push loop; the C loop
again starts at j = nlyrs. -/
def pushLowGo (swcsat : ℕ → ℚ) : ℕ → FlowSt → FlowSt
  | 0, s => pushStepLow swcsat s 0
  | k+1, s => pushLowGo swcsat k (pushStepLow swcsat s (k+1))

/-- Embeds `infiltrate_water_low` of SW_Flow_lib.c (lines 1037-1121). -/
def infiltrate_water_low (fexp : ℚ → ℚ) (frozen : ℕ → Bool)
    (swcfc width swcmin swcsat imperm : ℕ → ℚ) (sdrainpar sdraindpth : ℚ)
    (nlyrs : ℕ) (s : FlowSt) : FlowSt :=
  pushLowGo swcsat nlyrs
    (unsatPerc fexp frozen swcfc width swcmin imperm sdrainpar sdraindpth nlyrs s)

/- ============= Hydraulic redistribution (SW_Flow_lib.c) ============= -/

/-- Relative soil-root conductance of a layer (SW_Flow_lib.c line 1157):
fmin(1, fmax(0, 1/(1 + powe(swp/swp50, shapeCond)))).  The power helper powe
lives in generic.h (not among these sources) and is the parameter powe. -/
def relCondroot (powe : ℚ → ℚ → ℚ) (swp50 shapeCond swpi : ℚ) : ℚ :=
  min 1 (max 0 (1 / (1 + powe (swpi / swp50) shapeCond)))

/-- Value assigned to hydredmat[i][j] for a pair 1 ≤ i < j < nlyrs
(SW_Flow_lib.c lines 1168-1179): nonzero only if at least one of the two
layers is wetter than its wilting point and neither is frozen. -/
def hydredPair (swpf : ℕ → ℚ → ℚ) (powe : ℚ → ℚ → ℚ) (frozen : ℕ → Bool)
    (swc swcwp lyrRootCo : ℕ → ℚ) (maxCondroot swp50 shapeCond : ℚ)
    (i j : ℕ) : ℚ :=
  let swpi := swpf i (swc i)
  let swpj := swpf j (swc j)
  if (swpi < swpf i (swcwp i) ∨ swpj < swpf j (swcwp j))
      ∧ frozen i = false ∧ frozen j = false then
    let Rx := if swc i > swc j then lyrRootCo i else lyrRootCo j
    maxCondroot * 10 / 24 * (swpj - swpi)
      * max (relCondroot powe swp50 shapeCond swpi)
            (relCondroot powe swp50 shapeCond swpj)
      * (lyrRootCo i * lyrRootCo j / (1 - Rx))
  else 0

/-- The full pairwise flux matrix before the available-water scaling
(SW_Flow_lib.c lines 1151-1181): row and column 0 are zero (no redistribution
through the top layer), the diagonal is zero, entries outside the profile are
zero, and hydredmat[j][i] = -hydredmat[i][j]. -/
def hydredMatPre (swpf : ℕ → ℚ → ℚ) (powe : ℚ → ℚ → ℚ) (frozen : ℕ → Bool)
    (swc swcwp lyrRootCo : ℕ → ℚ) (maxCondroot swp50 shapeCond : ℚ)
    (nlyrs : ℕ) : ℕ → ℕ → ℚ :=
  fun i j =>
    if i = 0 ∨ j = 0 ∨ nlyrs ≤ i ∨ nlyrs ≤ j ∨ i = j then 0
    else if i < j then
      hydredPair swpf powe frozen swc swcwp lyrRootCo maxCondroot swp50 shapeCond i j
    else
      - hydredPair swpf powe frozen swc swcwp lyrRootCo maxCondroot swp50 shapeCond j i

/-- Row sum of a flux matrix over the layers of the profile. -/
def hydredRowSum (nlyrs : ℕ) (mat : ℕ → ℕ → ℚ) (i : ℕ) : ℚ :=
  ((List.range nlyrs).map (mat i)).sum

/-- One iteration of the available-water scaling loop of
`hydraulic_redistribution` (SW_Flow_lib.c lines 1183-1196): if row i loses
more than its available water, row i AND column i are scaled down. -/
def hydredScaleStep (swc swcwp : ℕ → ℚ) (nlyrs : ℕ)
    (mat : ℕ → ℕ → ℚ) (i : ℕ) : ℕ → ℕ → ℚ :=
  let hydred_sum := hydredRowSum nlyrs mat i
  let swa := max 0 (swc i - swcwp i)
  if hydred_sum < 0 ∧ swa < -hydred_sum then
    fun a b =>
      (if a = i then swa / -hydred_sum else 1)
        * (if b = i then swa / -hydred_sum else 1) * mat a b
  else mat

/-- The flux matrix after the available-water scaling loop (i = 0..nlyrs-1,
processed in order, each step seeing the previous steps' rescalings). -/
def hydredMatScaled (swpf : ℕ → ℚ → ℚ) (powe : ℚ → ℚ → ℚ) (frozen : ℕ → Bool)
    (swc swcwp lyrRootCo : ℕ → ℚ) (maxCondroot swp50 shapeCond : ℚ)
    (nlyrs : ℕ) : ℕ → ℕ → ℚ :=
  (List.range nlyrs).foldl (hydredScaleStep swc swcwp nlyrs)
    (hydredMatPre swpf powe frozen swc swcwp lyrRootCo maxCondroot swp50 shapeCond nlyrs)

/-- Embeds `hydraulic_redistribution` of SW_Flow_lib.c (lines 1123-1205).
Returns (updated swc, hydred array): hydred[i] is the scaled row sum times the
vegetation fraction, added to swc[i] for every profile layer. -/
def hydraulic_redistribution (swpf : ℕ → ℚ → ℚ) (powe : ℚ → ℚ → ℚ)
    (frozen : ℕ → Bool) (swc swcwp lyrRootCo : ℕ → ℚ)
    (maxCondroot swp50 shapeCond scale : ℚ) (nlyrs : ℕ) :
    (ℕ → ℚ) × (ℕ → ℚ) :=
  let mat := hydredMatScaled swpf powe frozen swc swcwp lyrRootCo
    maxCondroot swp50 shapeCond nlyrs
  let hydred : ℕ → ℚ :=
    fun i => ((List.range nlyrs).map (fun j => mat i j * scale)).sum
  (fun i => if i < nlyrs then swc i + hydred i else swc i, hydred)

/- ========== Freeze flags and surface temperature (SW_Flow_lib.c) ========== -/

/-- Constant FREEZING_TEMP_C.  Modelled from the spec: the frozen threshold is
-1 degree Celsius (SW_Defines.h is not among these sources). -/
def FREEZING_TEMP_C : ℚ := -1

/-- Constant MIN_VWC_TO_FREEZE.  Modelled from the spec: the
saturation-proximity threshold is 0.13 (SW_Defines.h is not among these
sources). -/
def MIN_VWC_TO_FREEZE : ℚ := 13/100

/-- Embeds `set_frozen_unfrozen` of SW_Flow_lib.c (lines 1508-1532): a layer
is frozen iff its temperature is at most -1 degree Celsius and its water
content is within width times 0.13 of saturation; indices beyond the profile
keep their previous flag. -/
def set_frozen_unfrozen (nlyrs : ℕ) (sTemp swc swc_sat width : ℕ → ℚ)
    (fr : ℕ → Bool) : ℕ → Bool :=
  fun i =>
    if i < nlyrs then
      decide (sTemp i ≤ FREEZING_TEMP_C
        ∧ swc i > swc_sat i - width i * MIN_VWC_TO_FREEZE)
    else fr i

/-- Embeds `surface_temperature_under_snow` of SW_Flow_lib.c (lines
1341-1356).  For snow < 0 the C function returns an uninitialized value; that
case is unreachable for physical inputs and is modelled as 0. -/
def surface_temperature_under_snow (airTempAvg snow : ℚ) : ℚ :=
  if snow = 0 then 0
  else if snow > 0 ∧ airTempAvg ≥ 0 then -2
  else if snow > 0 ∧ airTempAvg < 0 then
    3/10 * airTempAvg * max (-(3/20) * snow + 1) 0 + -2
  else 0

/-- The three-branch surface-temperature computation of `soil_temperature`
(SW_Flow_lib.c lines 1726-1751). -/
def surfaceTempT1 (snowdepth airTemp snow pet aet biomass bmLimiter
    t1Param1 t1Param2 t1Param3 : ℚ) : ℚ :=
  if snowdepth > 0 then surface_temperature_under_snow airTemp snow
  else if biomass ≤ bmLimiter then
    airTemp + t1Param1 * pet * (1 - aet / pet) * (1 - biomass / bmLimiter)
  else
    airTemp + t1Param2 * (biomass - bmLimiter) / t1Param3

/- ================= MarkovGenerator (SW_Markov.c) ================= -/

/-- Embeds `temp_correct_wetdry` of SW_Markov.c (lines 85-98): wet/dry
additive correction of (tmax, tmin); tmin is re-clamped to the corrected
tmax.  Returns (tmax, tmin). -/
def temp_correct_wetdry (tmax tmin rain cfmax_wet cfmax_dry cfmin_wet
    cfmin_dry : ℚ) : ℚ × ℚ :=
  if rain > 0 then
    (tmax + cfmax_wet, min (tmax + cfmax_wet) (tmin + cfmin_wet))
  else
    (tmax + cfmax_dry, min (tmax + cfmax_dry) (tmin + cfmin_dry))

/-- Embeds `mvnorm` of SW_Markov.c (lines 126-183).  The two standard-normal
draws of RandNorm are the parameters z1, z2; sqrt (math library, not among
these sources) is the parameter rsqrt.  A degenerate covariance matrix is the
fatal LogError path, modelled as none.  Returns some (tmax, tmin). -/
def mvnorm (rsqrt : ℚ → ℚ) (z1 z2 wTmax wTmin wTmax_var wTmin_var
    wT_covar : ℚ) : Option (ℚ × ℚ) :=
  let wTmax_sd := rsqrt wTmax_var
  let vc10 := if wTmax_sd > 0 then wT_covar / wTmax_sd else 0
  let s := vc10 * vc10
  if s > wTmin_var then none
  else
    let vc11 := if wTmin_var = s then 0 else rsqrt (wTmin_var - s)
    let tmax := wTmax_sd * z1 + wTmax
    some (tmax, min tmax (vc10 * z1 + vc11 * z2 + wTmin))

/-- Markov input state: per-day precipitation parameters and per-week
temperature parameters (SW_MARKOV of SW_Markov.h). -/
structure MarkovParams where
  wetprob : ℕ → ℚ
  dryprob : ℕ → ℚ
  avg_ppt : ℕ → ℚ
  std_ppt : ℕ → ℚ
  uTmax : ℕ → ℚ
  uTmin : ℕ → ℚ
  vTmaxVar : ℕ → ℚ
  vTminVar : ℕ → ℚ
  vCovar : ℕ → ℚ
  cfxw : ℕ → ℚ
  cfxd : ℕ → ℚ
  cfnw : ℕ → ℚ
  cfnd : ℕ → ℚ

/-- Embeds `SW_MKV_today` of SW_Markov.c (lines 279-334).  The helper
doy2week lives in Times.h (not among these sources) and is a parameter, as
are the uniform draw p, the precipitation draw x and the two normal draws
z1, z2.  Enters with rain0 = yesterday's rain; returns
some (tmax, tmin, rain) unless mvnorm hits the fatal covariance error. -/
def SW_MKV_today (doy2week : ℕ → ℕ) (rsqrt : ℚ → ℚ) (mp : MarkovParams)
    (doy0 : ℕ) (rain0 p x z1 z2 : ℚ) : Option (ℚ × ℚ × ℚ) :=
  let prob := if rain0 > 0 then mp.wetprob doy0 else mp.dryprob doy0
  let rain := if p ≤ prob then max 0 x else 0
  let week := doy2week (doy0 + 1)
  match mvnorm rsqrt z1 z2 (mp.uTmax week) (mp.uTmin week) (mp.vTmaxVar week)
      (mp.vTminVar week) (mp.vCovar week) with
  | none => none
  | some (tmax, tmin) =>
    let r := temp_correct_wetdry tmax tmin rain (mp.cfxw week) (mp.cfxd week)
      (mp.cfnw week) (mp.cfnd week)
    some (r.1, r.2, rain)

/- ============= SoilTemperatureEngine (SW_Flow_lib.c) ============= -/

/-- Zero the first n entries of a function-modelled array (a C loop
`for (i = 0; i < n; i++) f[i] = 0;`). -/
def zeroUpTo (f : ℕ → ℚ) (n : ℕ) : ℕ → ℚ := fun i => if i < n then 0 else f i

/-- Zero an nr-by-nc block of a function-modelled matrix. -/
def zeroBlock (m : ℕ → ℕ → ℚ) (nr nc : ℕ) : ℕ → ℕ → ℚ :=
  fun i j => if i < nr ∧ j < nc then 0 else m i j

/-- Module state of the soil-temperature engine: the ST_RGR_VALUES structure
stValues plus the three module flags of SW_Flow_lib.c. -/
structure STGrid where
  tlyrs_by_slyrs : ℕ → ℕ → ℚ
  depths : ℕ → ℚ
  depthsR : ℕ → ℚ
  fcR : ℕ → ℚ
  wpR : ℕ → ℚ
  bDensityR : ℕ → ℚ
  oldsTempR : ℕ → ℚ
  oldsFusionPool_actual : ℕ → ℚ
  lyrFrozen : ℕ → Bool
  soil_temp_error : Bool
  soil_temp_init : Bool
  fusion_pool_init : Bool

/-- Inner state of the correspondence-matrix construction of
`soil_temperature_init` (SW_Flow_lib.c lines 1416-1450). -/
structure CorrSt where
  mat : ℕ → ℕ → ℚ
  x1 : ℕ
  x2 : ℕ
  d1 : ℚ
  acc : ℚ

/-- Inner while loop of the correspondence construction for one temperature
layer i, fuel-bounded (each iteration advances x2 or fills the band). -/
def corrInner (width depths depthsR : ℕ → ℚ) (deltaX : ℚ) (nlyrs i : ℕ) :
    ℕ → CorrSt → CorrSt
  | 0, c => c
  | fuel+1, c =>
    if c.x2 < nlyrs ∧ c.acc < deltaX then
      let c1 : CorrSt :=
        if c.d1 > 0 then
          if c.d1 > deltaX then
            { c with mat := upd2 c.mat i c.x1 deltaX, d1 := c.d1 - deltaX,
                     acc := c.acc + deltaX }
          else
            { c with mat := upd2 c.mat i c.x1 c.d1, d1 := 0, x2 := c.x2 + 1,
                     acc := c.acc + c.d1 }
        else
          if depthsR i < depths c.x2 then
            let d2 := max (deltaX - c.acc) 0
            { c with mat := upd2 c.mat i c.x2 d2, d1 := width c.x2 - d2,
                     acc := c.acc + d2 }
          else
            { c with mat := upd2 c.mat i c.x2 (width c.x2), d1 := 0,
                     x2 := c.x2 + 1, acc := c.acc + width c.x2 }
      corrInner width depths depthsR deltaX nlyrs i fuel c1
    else c

/-- Full correspondence-matrix construction: temperature layers i = 0..nRgr,
threading x1, x2, d1; when the profile is exhausted the last column records
the negative extrapolation marker -(deltaX - acc). -/
def corrBuild (width depths depthsR : ℕ → ℚ) (deltaX : ℚ) (nlyrs nRgr : ℕ)
    (mat0 : ℕ → ℕ → ℚ) : ℕ → ℕ → ℚ :=
  ((List.range (nRgr + 1)).foldl
    (fun (c : CorrSt) i =>
      let t := corrInner width depths depthsR deltaX nlyrs i (nlyrs + 2)
        { c with acc := 0 }
      let mat2 :=
        if nlyrs ≤ t.x2 then upd2 t.mat i t.x2 (-(deltaX - t.acc)) else t.mat
      { t with mat := mat2, x1 := t.x2 })
    { mat := mat0, x1 := 0, x2 := 0, d1 := 0, acc := 0 }).mat

/-- Inner while loop of `lyrSoil_to_lyrTemp` (SW_Flow_lib.c lines 1304-1318)
for one temperature layer i; the soil-layer cursor j persists across layers.
Returns (j, res, sum).  Fuel-bounded translation of the C while loop. -/
def lyrSoil_to_lyrTempAcc (cor : ℕ → ℕ → ℚ) (width_Soil var : ℕ → ℚ)
    (width_Temp : ℚ) (nlyrSoil i : ℕ) :
    ℕ → ℕ → ℚ → ℚ → ℚ → ℕ × ℚ × ℚ
  | 0, j, _, res, sum => (j, res, sum)
  | fuel+1, j, acc, res, sum =>
    if acc < width_Temp ∧ j < nlyrSoil + 1 then
      if cor i j ≥ 0 then
        let ratio := cor i j / width_Soil j
        let acc1 := acc + cor i j
        let j1 := if acc1 < width_Temp then j + 1 else j
        lyrSoil_to_lyrTempAcc cor width_Soil var width_Temp nlyrSoil i fuel
          j1 acc1 (res + var j * ratio) (sum + ratio)
      else
        let ratio := -(cor i j) / width_Soil (j - 1)
        lyrSoil_to_lyrTempAcc cor width_Soil var width_Temp nlyrSoil i fuel
          j (acc + -(cor i j)) (res + var (j - 1) * ratio) (sum + ratio)
    else (j, res, sum)

/-- Embeds `lyrSoil_to_lyrTemp` of SW_Flow_lib.c (lines 1296-1330):
mass-preserving projection of a per-soil-layer variable onto the uniform
temperature grid.  res0 is the caller's array (entries 0..nlyrTemp are all
written). -/
def lyrSoil_to_lyrTemp (cor : ℕ → ℕ → ℚ) (nlyrSoil : ℕ)
    (width_Soil var : ℕ → ℚ) (nlyrTemp : ℕ) (width_Temp : ℚ)
    (res0 : ℕ → ℚ) : ℕ → ℚ :=
  ((List.range (nlyrTemp + 1)).foldl
    (fun (p : (ℕ → ℚ) × ℕ) i =>
      let t := lyrSoil_to_lyrTempAcc cor width_Soil var width_Temp nlyrSoil i
        (nlyrSoil + 4) p.2 0 0 0
      (upd p.1 i (t.2.1 / t.2.2), t.1))
    (res0, 0)).1

/-- Bounded while-loop helper advancing an index while a condition holds. -/
def whileInc (cond : ℕ → Bool) : ℕ → ℕ → ℕ
  | 0, j => j
  | fuel+1, j => if cond j then whileInc cond fuel (j+1) else j

/-- Embeds `lyrSoil_to_lyrTemp_temperature` of SW_Flow_lib.c (lines
1253-1294): interpolate soil-layer temperatures at the depths of the uniform
grid, with bottom boundary endTemp at maxTempDepth.  The interpolation helper
of generic.c is the parameter itp.  Writes sTempR indices 1..nlyrTemp+1. -/
def lyrSoil_to_lyrTemp_temperature (itp : ℚ → ℚ → ℚ → ℚ → ℚ → ℚ)
    (nlyrSoil : ℕ) (depth_Soil sTemp : ℕ → ℚ) (endTemp : ℚ)
    (nlyrTemp : ℕ) (depth_Temp : ℕ → ℚ) (maxTempDepth : ℚ)
    (sTempR0 : ℕ → ℚ) : ℕ → ℚ :=
  let depth_Soil2 : ℕ → ℚ :=
    fun j => if j < nlyrSoil then depth_Soil j else maxTempDepth
  let sTemp2 : ℕ → ℚ := fun j => if j < nlyrSoil then sTemp j else endTemp
  let r :=
    ((List.range nlyrTemp).foldl
      (fun (p : (ℕ → ℚ) × ℕ) i =>
        let j1 := whileInc
          (fun j => decide (depth_Soil2 (j+1) < depth_Temp i ∧ j+1 < nlyrSoil))
          (nlyrSoil + 1) p.2
        let j2 := whileInc
          (fun j => decide (depth_Soil2 (j+1) ≤ depth_Temp i ∧ j+1 < nlyrSoil + 1))
          (nlyrSoil + 2) (j1 + 1)
        (upd p.1 (i+1)
          (itp (depth_Soil2 j1) (depth_Soil2 j2) (sTemp2 j1) (sTemp2 j2)
            (depth_Temp i)), j1))
      (sTempR0, 0)).1
  upd r (nlyrTemp + 1) endTemp

/-- Inner while loop of `lyrTemp_to_lyrSoil_temperature` (SW_Flow_lib.c lines
1226-1239) for one soil layer j; the temperature-layer cursor i persists
across layers.  Returns (i, accumulated temperature, count n). -/
def lyrTemp_to_lyrSoilAcc (itp : ℚ → ℚ → ℚ → ℚ → ℚ → ℚ) (cor : ℕ → ℕ → ℚ)
    (nlyrTemp : ℕ) (depth_Temp sTempR width_Soil depth_Soil : ℕ → ℚ)
    (j : ℕ) : ℕ → ℕ → ℚ → ℚ → ℕ → ℕ × ℚ × ℕ
  | 0, i, _, stj, n => (i, stj, n)
  | fuel+1, i, acc, stj, n =>
    if acc < width_Soil j ∧ i ≤ nlyrTemp + 1 then
      let i1 := if cor i j = 0 then i + 1 else i
      if cor i1 j > 0 then
        let p :=
          if ¬ (i1 = 0 ∧ acc + cor i1 j < width_Soil j) then
            (stj + itp (if 0 < i1 then depth_Temp (i1 - 1) else 0)
              (depth_Temp i1) (sTempR i1) (sTempR (i1 + 1)) (depth_Soil j),
             n + 1)
          else (stj, n)
        let acc1 := acc + cor i1 j
        let i2 := if acc1 < width_Soil j then i1 + 1 else i1
        lyrTemp_to_lyrSoilAcc itp cor nlyrTemp depth_Temp sTempR width_Soil
          depth_Soil j fuel i2 acc1 p.1 p.2
      else if cor i1 j < 0 then (i1, stj, n)
      else
        lyrTemp_to_lyrSoilAcc itp cor nlyrTemp depth_Temp sTempR width_Soil
          depth_Soil j fuel i1 acc stj n
    else (i, stj, n)

/-- Embeds `lyrTemp_to_lyrSoil_temperature` of SW_Flow_lib.c (lines
1217-1251): area-weighted back-projection of the grid temperatures onto the
soil layers (soil layer indices 0..nlyrSoil are written). -/
def lyrTemp_to_lyrSoil_temperature (itp : ℚ → ℚ → ℚ → ℚ → ℚ → ℚ)
    (cor : ℕ → ℕ → ℚ) (nlyrTemp : ℕ) (depth_Temp sTempR : ℕ → ℚ)
    (nlyrSoil : ℕ) (depth_Soil width_Soil sTemp0 : ℕ → ℚ) : ℕ → ℚ :=
  ((List.range (nlyrSoil + 1)).foldl
    (fun (p : (ℕ → ℚ) × ℕ) j =>
      let t := lyrTemp_to_lyrSoilAcc itp cor nlyrTemp depth_Temp sTempR
        width_Soil depth_Soil j (nlyrTemp + 4) p.2 0 0 0
      let v := if 0 < t.2.2 then t.2.1 / (t.2.2 : ℚ) else t.2.1
      (upd p.1 j v, t.1))
    (sTemp0, 0)).1

/-- Embeds `soil_temperature_init` of SW_Flow_lib.c (lines 1358-1506).  The
grid arrays are first zeroed and depths/depthsR computed; if the configured
maximum depth is shallower than the profile, the fatal error flag is raised
and the function returns at that point. -/
def soil_temperature_init (itp : ℚ → ℚ → ℚ → ℚ → ℚ → ℚ)
    (bDensity width oldsTemp : ℕ → ℚ) (meanAirTemp : ℚ) (nlyrs : ℕ)
    (fc wp : ℕ → ℚ) (deltaX theMaxDepth : ℚ) (nRgr : ℕ)
    (st : STGrid) : STGrid :=
  let st1 : STGrid := { st with
    soil_temp_init := true,
    fcR := zeroUpTo st.fcR (nRgr + 1),
    wpR := zeroUpTo st.wpR (nRgr + 1),
    bDensityR := zeroUpTo st.bDensityR (nRgr + 1),
    oldsTempR := zeroUpTo st.oldsTempR (nRgr + 1),
    tlyrs_by_slyrs := zeroBlock st.tlyrs_by_slyrs (nRgr + 1) (nlyrs + 1),
    depths := fun j =>
      if j < nlyrs + 1 then ((List.range (j + 1)).map width).sum
      else st.depths j,
    depthsR := fun i =>
      if i < nRgr + 1 then ((i : ℚ) + 1) * deltaX else st.depthsR i }
  if theMaxDepth < st1.depths (nlyrs - 1) then
    { st1 with soil_temp_error := true }
  else
    let cor := corrBuild width st1.depths st1.depthsR deltaX nlyrs nRgr
      st1.tlyrs_by_slyrs
    let st2 := { st1 with tlyrs_by_slyrs := cor }
    let fc_vwc : ℕ → ℚ := fun i => fc i / width i
    let wp_vwc : ℕ → ℚ := fun i => wp i / width i
    { st2 with
      bDensityR := lyrSoil_to_lyrTemp cor nlyrs width bDensity nRgr deltaX
        st2.bDensityR,
      oldsTempR := lyrSoil_to_lyrTemp_temperature itp nlyrs st2.depths
        oldsTemp meanAirTemp nRgr st2.depthsR theMaxDepth st2.oldsTempR,
      fcR := lyrSoil_to_lyrTemp cor nlyrs width fc_vwc nRgr deltaX st2.fcR,
      wpR := lyrSoil_to_lyrTemp cor nlyrs width wp_vwc nRgr deltaX st2.wpR }

/-- The stability coefficient (named parts in the C code) of grid band k in
the heat-equation loop of `soil_temperature` (SW_Flow_lib.c lines
1780-1787); SEC_PER_DAY = 86400 is modelled from the spec (Times.h is not
among these sources). -/
def stabilityParts (vwcR wpR fcR bDensityR : ℕ → ℚ)
    (csParam1 csParam2 shParam deltaX : ℚ) (k : ℕ) : ℚ :=
  let pe := (vwcR k - wpR k) / (fcR k - wpR k)
  let cs := csParam1 + pe * csParam2
  let sh := vwcR k + shParam * (1 - vwcR k)
  86400 / (deltaX * deltaX) * cs / (sh * bDensityR k)

/-- One iteration (grid index i = k+1) of the heat-equation loop of
`soil_temperature` (SW_Flow_lib.c lines 1781-1814): the new temperature uses
the already-updated value at i-1; the non-fatal error flag is OR-ed with the
stability check parts > 1. -/
def heatStep (vwcR wpR fcR bDensityR oldsTempR : ℕ → ℚ)
    (csParam1 csParam2 shParam deltaX : ℚ)
    (p : (ℕ → ℚ) × Bool) (i : ℕ) : (ℕ → ℚ) × Bool :=
  let parts := stabilityParts vwcR wpR fcR bDensityR csParam1 csParam2
    shParam deltaX (i - 1)
  let part2 := p.1 (i - 1) - 2 * oldsTempR i + oldsTempR (i + 1)
  (upd p.1 i (oldsTempR i + parts * part2), p.2 || decide (parts > 1))

/-- Heat-equation loop over grid indices i = 1..nRgr. -/
def heatLoop (vwcR wpR fcR bDensityR oldsTempR : ℕ → ℚ)
    (csParam1 csParam2 shParam deltaX : ℚ) (nRgr : ℕ)
    (sTempR0 : ℕ → ℚ) (err0 : Bool) : (ℕ → ℚ) × Bool :=
  ((List.range nRgr).map (· + 1)).foldl
    (heatStep vwcR wpR fcR bDensityR oldsTempR csParam1 csParam2 shParam deltaX)
    (sTempR0, err0)

/-- Embeds `adjust_Tsoil_by_freezing_and_thawing` of SW_Flow_lib.c (lines
1535-1610): the Eitzinger fusion-pool computation is commented out in the
source, so the function only initialises the fusion pools once and always
reports that no temperature was adjusted. -/
def adjust_Tsoil_by_freezing_and_thawing (nlyrs : ℕ) (st : STGrid) :
    STGrid × Bool :=
  let st1 :=
    if st.fusion_pool_init then st
    else { st with
      oldsFusionPool_actual := zeroUpTo st.oldsFusionPool_actual nlyrs,
      fusion_pool_init := true }
  (st1, false)

/-- Daily inputs of `soil_temperature`. -/
structure SoilTempIn where
  airTemp : ℚ
  pet : ℚ
  aet : ℚ
  biomass : ℚ
  snowdepth : ℚ
  snow : ℚ
  meanAirTemp : ℚ
  bmLimiter : ℚ
  t1Param1 : ℚ
  t1Param2 : ℚ
  t1Param3 : ℚ
  csParam1 : ℚ
  csParam2 : ℚ
  shParam : ℚ
  deltaX : ℚ
  theMaxDepth : ℚ
  nlyrs : ℕ
  nRgr : ℕ
  swc : ℕ → ℚ
  swc_sat : ℕ → ℚ
  bDensity : ℕ → ℚ
  width : ℕ → ℚ
  oldsTemp : ℕ → ℚ
  fc : ℕ → ℚ
  wp : ℕ → ℚ

/-- Embeds `soil_temperature` of SW_Flow_lib.c (lines 1674-1887): the daily
step of the finite-difference solver.  Takes the caller's sTemp array base
and the surfaceTemp pair (yesterday, today); returns the updated module
state, the back-projected soil-layer temperatures and the updated
surfaceTemp pair. -/
def soil_temperature (itp : ℚ → ℚ → ℚ → ℚ → ℚ → ℚ) (inp : SoilTempIn)
    (sTemp0 : ℕ → ℚ) (surfaceTemp : ℚ × ℚ) (st : STGrid) :
    STGrid × (ℕ → ℚ) × (ℚ × ℚ) :=
  let surfaceTemp1 :=
    if st.soil_temp_init then surfaceTemp else (surfaceTemp.1, inp.airTemp)
  let st1 :=
    if st.soil_temp_init then st
    else
      let fr := set_frozen_unfrozen inp.nlyrs inp.oldsTemp inp.swc
        inp.swc_sat inp.width st.lyrFrozen
      soil_temperature_init itp inp.bDensity inp.width inp.oldsTemp
        inp.meanAirTemp inp.nlyrs inp.fc inp.wp inp.deltaX inp.theMaxDepth
        inp.nRgr { st with lyrFrozen := fr }
  let T1 := surfaceTempT1 inp.snowdepth inp.airTemp inp.snow inp.pet inp.aet
    inp.biomass inp.bmLimiter inp.t1Param1 inp.t1Param2 inp.t1Param3
  let vwc : ℕ → ℚ := fun i => inp.swc i / inp.width i
  let vwcR := lyrSoil_to_lyrTemp st1.tlyrs_by_slyrs inp.nlyrs inp.width vwc
    inp.nRgr inp.deltaX (fun _ => 0)
  let hl := heatLoop vwcR st1.wpR st1.fcR st1.bDensityR st1.oldsTempR
    inp.csParam1 inp.csParam2 inp.shParam inp.deltaX inp.nRgr
    (upd (fun _ => 0) 0 T1) st1.soil_temp_error
  let sTempR := upd hl.1 (inp.nRgr + 1) inp.meanAirTemp
  let surfaceTemp2 := (surfaceTemp1.2, T1)
  let sTemp := lyrTemp_to_lyrSoil_temperature itp st1.tlyrs_by_slyrs inp.nRgr
    st1.depthsR sTempR inp.nlyrs st1.depths inp.width sTemp0
  let aj := adjust_Tsoil_by_freezing_and_thawing inp.nlyrs
    { st1 with soil_temp_error := hl.2 }
  let sTempR2 :=
    if aj.2 then
      lyrSoil_to_lyrTemp_temperature itp inp.nlyrs st1.depths sTemp
        inp.meanAirTemp inp.nRgr st1.depthsR inp.theMaxDepth sTempR
    else sTempR
  let fr2 := set_frozen_unfrozen inp.nlyrs sTemp inp.swc inp.swc_sat
    inp.width aj.1.lyrFrozen
  let oldR : ℕ → ℚ :=
    fun i => if i ≤ inp.nRgr + 1 then sTempR2 i else aj.1.oldsTempR i
  ({ aj.1 with lyrFrozen := fr2, oldsTempR := oldR }, sTemp, surfaceTemp2)

/- ====================== Theorems: C2, C5, C6 ====================== -/

/-- C2: after `set_frozen_unfrozen` returns, a profile layer i is frozen
exactly when its soil temperature is at most -1 degree Celsius and
SWC_sat[i] - SWC[i] < width[i] * 0.13, with the exact ≤ / < boundary
convention of the source; otherwise the layer is unfrozen. -/
theorem C2_frozen_flag_rule (nlyrs : ℕ) (sTemp swc swc_sat width : ℕ → ℚ)
    (fr : ℕ → Bool) (i : ℕ) (hi : i < nlyrs) :
    (set_frozen_unfrozen nlyrs sTemp swc swc_sat width fr i = true
      ↔ (sTemp i ≤ -1 ∧ swc_sat i - swc i < width i * (13/100))) := by
  simp only [set_frozen_unfrozen, FREEZING_TEMP_C, MIN_VWC_TO_FREEZE, hi,
    if_true, decide_eq_true_eq]
  constructor
  · rintro ⟨h1, h2⟩
    exact ⟨h1, by linarith⟩
  · rintro ⟨h1, h2⟩
    exact ⟨h1, by linarith⟩

/-- Witness for C2 at a concrete boundary input: temperature exactly -1 and
water content exactly at the saturation-proximity threshold margin. -/
theorem C2_frozen_flag_rule_witness :
    (0 < 1)
    ∧ (set_frozen_unfrozen 1 (fun _ => -1) (fun _ => 1) (fun _ => 1)
        (fun _ => 1) (fun _ => false) 0 = true
      ↔ ((-1 : ℚ) ≤ -1 ∧ (1 : ℚ) - 1 < 1 * (13/100))) :=
  ⟨by decide,
   C2_frozen_flag_rule 1 (fun _ => -1) (fun _ => 1) (fun _ => 1) (fun _ => 1)
     (fun _ => false) 0 (by decide)⟩

/-- C5: the surface temperature T1 of `soil_temperature` follows the
three-branch reference definition — under-snow formula when snow depth is
positive (itself returning 0 for SWE = 0, -2 for warm air over snow, and the
Parton formula for cold air over snow), the PET/biomass formula for
AGB ≤ bmLimiter = 300, and the biomass-excess formula otherwise. -/
theorem C5_surface_temperature_T1 (snowdepth airTemp snow pet aet biomass
    t1p1 t1p2 t1p3 : ℚ) :
    (snowdepth > 0 →
      surfaceTempT1 snowdepth airTemp snow pet aet biomass 300 t1p1 t1p2 t1p3
        = surface_temperature_under_snow airTemp snow)
    ∧ surface_temperature_under_snow airTemp 0 = 0
    ∧ (snow > 0 → airTemp ≥ 0 →
        surface_temperature_under_snow airTemp snow = -2)
    ∧ (snow > 0 → airTemp < 0 →
        surface_temperature_under_snow airTemp snow
          = 3/10 * airTemp * max (-(3/20) * snow + 1) 0 - 2)
    ∧ (¬ snowdepth > 0 → biomass ≤ 300 → pet > 0 →
        surfaceTempT1 snowdepth airTemp snow pet aet biomass 300 t1p1 t1p2 t1p3
          = airTemp + t1p1 * pet * (1 - aet / pet) * (1 - biomass / 300))
    ∧ (¬ snowdepth > 0 → ¬ biomass ≤ 300 →
        surfaceTempT1 snowdepth airTemp snow pet aet biomass 300 t1p1 t1p2 t1p3
          = airTemp + t1p2 * (biomass - 300) / t1p3) := by
  refine ⟨?_, ?_, ?_, ?_, ?_, ?_⟩
  · intro h; simp [surfaceTempT1, h]
  · simp [surface_temperature_under_snow]
  · intro hs ha
    simp [surface_temperature_under_snow, ne_of_gt hs, hs, ha]
  · intro hs ha
    have h1 : snow ≠ 0 := ne_of_gt hs
    have h2 : ¬ (snow > 0 ∧ airTemp ≥ 0) := by
      rintro ⟨_, h⟩; linarith
    have h3 : snow > 0 ∧ airTemp < 0 := ⟨hs, ha⟩
    rw [surface_temperature_under_snow, if_neg h1, if_neg h2, if_pos h3]
    ring
  · intro h hb _
    simp [surfaceTempT1, h, hb]
  · intro h hb
    simp [surfaceTempT1, h, hb]

/-- Witness for C5 on the bare-ground PET branch (snow depth 0, biomass 100,
PET 0.3, AET 0.1). -/
theorem C5_surface_temperature_T1_witness :
    ¬ (0 : ℚ) > 0 ∧ (100 : ℚ) ≤ 300 ∧ (3/10 : ℚ) > 0
    ∧ surfaceTempT1 0 10 0 (3/10) (1/10) 100 300 15 (-4) 600
        = 10 + 15 * (3/10) * (1 - (1/10) / (3/10)) * (1 - 100 / 300) :=
  ⟨by norm_num, by norm_num, by norm_num,
   (C5_surface_temperature_T1 0 10 0 (3/10) (1/10) 100 15 (-4) 600).2.2.2.2.1
     (by norm_num) (by norm_num) (by norm_num)⟩

/-- Clamp rewriting shared by the interception proofs: the code's iterated
fmin over a nonnegative value equals the clamp to [0, min(ppt, cap)]. -/
theorem interceptClampEq (v p m : ℚ) (hv : 0 ≤ v) (hp : 0 < p) (hm : 0 ≤ m) :
    min (min v p) m = max 0 (min v (min p m)) := by
  rw [min_assoc, max_eq_right (le_min hv (le_min hp.le hm))]

/-- Functional form of the vegetation interception routines on the active
branch (cover and precipitation positive, nonnegative parameters). -/
theorem veg_intercept_spec (maxW ppt cov scale a b c d : ℚ)
    (hcov : 0 < cov) (hppt : 0 < ppt) (hs : 0 ≤ scale) (ha : 0 ≤ a)
    (hb : 0 ≤ b) (hc : 0 ≤ c) (hd : 0 ≤ d) (hm : 0 ≤ maxW) :
    grass_intercepted_water maxW ppt cov scale a b c d
      = (max (ppt - max 0 (min (scale * ((a + b * cov) + (c + d * cov) * ppt))
            (min ppt maxW))) 0,
         max 0 (min (scale * ((a + b * cov) + (c + d * cov) * ppt))
            (min ppt maxW))) := by
  have hv : 0 ≤ (b * cov + a + (d * cov + c) * ppt) * scale :=
    mul_nonneg
      (add_nonneg (add_nonneg (mul_nonneg hb hcov.le) ha)
        (mul_nonneg (add_nonneg (mul_nonneg hd hcov.le) hc) hppt.le)) hs
  have hform : (b * cov + a + (d * cov + c) * ppt) * scale
      = scale * ((a + b * cov) + (c + d * cov) * ppt) := by ring
  rw [grass_intercepted_water, if_pos ⟨hcov, hppt⟩]
  simp only []
  rw [interceptClampEq _ _ _ hv hppt hm, hform]

/-- Functional form of the litter interception routine on the active branch. -/
theorem litter_intercept_spec (maxW ppt blitter scale a b c d : ℚ)
    (hcov : 0 < blitter) (hppt : 0 < ppt) (hs : 0 ≤ scale) (ha : 0 ≤ a)
    (hb : 0 ≤ b) (hc : 0 ≤ c) (hd : 0 ≤ d) (hm : 0 ≤ maxW) :
    litter_intercepted_water maxW ppt blitter scale a b c d
      = (max (ppt - max 0 (min (scale * ((a + b * blitter) + (c + d * blitter) * ppt))
            (min ppt maxW))) 0,
         max 0 (min (scale * ((a + b * blitter) + (c + d * blitter) * ppt))
            (min ppt maxW))) := by
  have hv : 0 ≤ (b * blitter + a + (d * blitter + c) * ppt) * scale :=
    mul_nonneg
      (add_nonneg (add_nonneg (mul_nonneg hb hcov.le) ha)
        (mul_nonneg (add_nonneg (mul_nonneg hd hcov.le) hc) hppt.le)) hs
  have hform : (b * blitter + a + (d * blitter + c) * ppt) * scale
      = scale * ((a + b * blitter) + (c + d * blitter) * ppt) := by ring
  rw [litter_intercepted_water, if_neg (ne_of_gt hcov), if_pos hppt]
  simp only []
  rw [min_comm ppt ((b * blitter + a + (d * blitter + c) * ppt) * scale),
    interceptClampEq _ _ _ hv hppt hm, hform]

/-- C6: each interception operation intercepts
scale*((a + b*cov) + (c + d*cov)*pptleft) clamped to [0, min(pptleft, cap)]
(cap MAX_WINTSTCR for grass/shrub/forb, MAX_WINTFOR for tree, MAX_WINTLIT for
litter), updates pptleft to max(pptleft - intercepted, 0), and passes
pptleft through with zero interception when the cover variable or the
incoming water is zero.  Parameters are nonnegative (interception data
model). -/
theorem C6_interception_clamp (maxWstcr maxWfor maxWlit ppt cov scale
    a b c d : ℚ) (hs : 0 ≤ scale) (ha : 0 ≤ a) (hb : 0 ≤ b) (hc : 0 ≤ c)
    (hd : 0 ≤ d) (hm1 : 0 ≤ maxWstcr) (hm2 : 0 ≤ maxWfor)
    (hm3 : 0 ≤ maxWlit) :
    (0 < cov → 0 < ppt →
      (grass_intercepted_water maxWstcr ppt cov scale a b c d
          = (max (ppt - max 0 (min (scale * ((a + b * cov) + (c + d * cov) * ppt))
                (min ppt maxWstcr))) 0,
             max 0 (min (scale * ((a + b * cov) + (c + d * cov) * ppt))
                (min ppt maxWstcr)))
        ∧ shrub_intercepted_water maxWstcr ppt cov scale a b c d
          = grass_intercepted_water maxWstcr ppt cov scale a b c d
        ∧ forb_intercepted_water maxWstcr ppt cov scale a b c d
          = grass_intercepted_water maxWstcr ppt cov scale a b c d
        ∧ tree_intercepted_water maxWfor ppt cov scale a b c d
          = (max (ppt - max 0 (min (scale * ((a + b * cov) + (c + d * cov) * ppt))
                (min ppt maxWfor))) 0,
             max 0 (min (scale * ((a + b * cov) + (c + d * cov) * ppt))
                (min ppt maxWfor)))
        ∧ litter_intercepted_water maxWlit ppt cov scale a b c d
          = (max (ppt - max 0 (min (scale * ((a + b * cov) + (c + d * cov) * ppt))
                (min ppt maxWlit))) 0,
             max 0 (min (scale * ((a + b * cov) + (c + d * cov) * ppt))
                (min ppt maxWlit)))))
    ∧ (cov = 0 ∨ ppt = 0 →
        ((grass_intercepted_water maxWstcr ppt cov scale a b c d).2 = 0
          ∧ (grass_intercepted_water maxWstcr ppt cov scale a b c d).1 = ppt)
        ∧ ((shrub_intercepted_water maxWstcr ppt cov scale a b c d).2 = 0
          ∧ (shrub_intercepted_water maxWstcr ppt cov scale a b c d).1 = ppt)
        ∧ ((forb_intercepted_water maxWstcr ppt cov scale a b c d).2 = 0
          ∧ (forb_intercepted_water maxWstcr ppt cov scale a b c d).1 = ppt)
        ∧ ((tree_intercepted_water maxWfor ppt cov scale a b c d).2 = 0
          ∧ (tree_intercepted_water maxWfor ppt cov scale a b c d).1 = ppt)
        ∧ ((litter_intercepted_water maxWlit ppt cov scale a b c d).2 = 0
          ∧ (litter_intercepted_water maxWlit ppt cov scale a b c d).1 = ppt)) := by
  constructor
  · intro hcov hppt
    refine ⟨veg_intercept_spec maxWstcr ppt cov scale a b c d hcov hppt hs ha hb hc hd hm1,
      rfl, rfl, ?_, ?_⟩
    · exact veg_intercept_spec maxWfor ppt cov scale a b c d hcov hppt hs ha hb hc hd hm2
    · exact litter_intercept_spec maxWlit ppt cov scale a b c d hcov hppt hs ha hb hc hd hm3
  · intro hz
    have hng : ¬ (cov > 0 ∧ ppt > 0) := by
      rcases hz with h | h
      · rintro ⟨hco, _⟩; rw [h] at hco; exact lt_irrefl 0 hco
      · rintro ⟨_, hp⟩; rw [h] at hp; exact lt_irrefl 0 hp
    have hgr : grass_intercepted_water maxWstcr ppt cov scale a b c d = (ppt, 0) := by
      rw [grass_intercepted_water, if_neg hng]
    have hsh : shrub_intercepted_water maxWstcr ppt cov scale a b c d = (ppt, 0) := by
      rw [shrub_intercepted_water, if_neg hng]
    have hfo : forb_intercepted_water maxWstcr ppt cov scale a b c d = (ppt, 0) := by
      rw [forb_intercepted_water, if_neg hng]
    have htr : tree_intercepted_water maxWfor ppt cov scale a b c d = (ppt, 0) := by
      rw [tree_intercepted_water, if_neg hng]
    have hli : (litter_intercepted_water maxWlit ppt cov scale a b c d).2 = 0
        ∧ (litter_intercepted_water maxWlit ppt cov scale a b c d).1 = ppt := by
      rcases hz with h | h
      · rw [litter_intercepted_water, if_pos h]; exact ⟨rfl, rfl⟩
      · rw [litter_intercepted_water]
        by_cases hb0 : cov = 0
        · rw [if_pos hb0]; exact ⟨rfl, rfl⟩
        · rw [if_neg hb0, if_neg (by rw [h]; exact lt_irrefl 0)]
          exact ⟨rfl, by rw [h]⟩
    exact ⟨⟨by rw [hgr], by rw [hgr]⟩, ⟨by rw [hsh], by rw [hsh]⟩,
      ⟨by rw [hfo], by rw [hfo]⟩, ⟨by rw [htr], by rw [htr]⟩, hli⟩

/-- Witness for C6 at a concrete input (cov = 2, ppt = 1, all parameters
1/10, caps 1). -/
theorem C6_interception_clamp_witness :
    ((0:ℚ) ≤ 1/10) ∧ ((0:ℚ) < 2) ∧ ((0:ℚ) < 1)
    ∧ (grass_intercepted_water 1 1 2 (1/10) (1/10) (1/10) (1/10) (1/10)
        = (max ((1:ℚ) - max 0 (min ((1/10) * ((1/10 + (1/10) * 2) + (1/10 + (1/10) * 2) * 1))
              (min 1 1))) 0,
           max 0 (min ((1/10) * ((1/10 + (1/10) * 2) + (1/10 + (1/10) * 2) * 1))
              (min 1 1)))) :=
  ⟨by norm_num, by norm_num, by norm_num,
   ((C6_interception_clamp 1 1 1 1 2 (1/10) (1/10) (1/10) (1/10) (1/10)
      (by norm_num) (by norm_num) (by norm_num) (by norm_num) (by norm_num)
      (by norm_num) (by norm_num) (by norm_num)).1 (by norm_num) (by norm_num)).1⟩

/- ====================== Theorem: C9 ====================== -/

/-- C9: for every parameter set and every sequence of random draws, the
temperature pair satisfies tmin ≤ tmax directly after the bivariate-normal
draw of `mvnorm`, after the wet/dry correction of `temp_correct_wetdry`, and
in the pair returned by `SW_MKV_today`. -/
theorem C9_markov_tmin_le_tmax (doy2week : ℕ → ℕ) (rsqrt : ℚ → ℚ)
    (mp : MarkovParams) (doy0 : ℕ) (rain0 p x z1 z2 : ℚ) :
    (∀ wTmax wTmin wTmax_var wTmin_var wT_covar tmax tmin : ℚ,
      mvnorm rsqrt z1 z2 wTmax wTmin wTmax_var wTmin_var wT_covar
          = some (tmax, tmin) → tmin ≤ tmax)
    ∧ (∀ tmax tmin rain cw cd nw nd : ℚ,
        (temp_correct_wetdry tmax tmin rain cw cd nw nd).2
          ≤ (temp_correct_wetdry tmax tmin rain cw cd nw nd).1)
    ∧ (∀ tmax tmin rain : ℚ,
        SW_MKV_today doy2week rsqrt mp doy0 rain0 p x z1 z2
            = some (tmax, tmin, rain) → tmin ≤ tmax) := by
  have hmv : ∀ wTmax wTmin wTmax_var wTmin_var wT_covar tmax tmin : ℚ,
      mvnorm rsqrt z1 z2 wTmax wTmin wTmax_var wTmin_var wT_covar
        = some (tmax, tmin) → tmin ≤ tmax := by
    intro a b c dd e tmax tmin h
    rw [mvnorm] at h
    by_cases hc : (if rsqrt c > 0 then e / rsqrt c else 0)
        * (if rsqrt c > 0 then e / rsqrt c else 0) > dd
    · rw [if_pos hc] at h; exact absurd h (by simp)
    · rw [if_neg hc] at h
      simp only [Option.some.injEq, Prod.mk.injEq] at h
      obtain ⟨ht1, ht2⟩ := h
      rw [← ht1, ← ht2]
      exact min_le_left _ _
  have hcw : ∀ tmax tmin rain cw cd nw nd : ℚ,
      (temp_correct_wetdry tmax tmin rain cw cd nw nd).2
        ≤ (temp_correct_wetdry tmax tmin rain cw cd nw nd).1 := by
    intro tmax tmin rain cw cd nw nd
    rw [temp_correct_wetdry]
    by_cases hr : rain > 0
    · rw [if_pos hr]; exact min_le_left _ _
    · rw [if_neg hr]; exact min_le_left _ _
  refine ⟨hmv, hcw, ?_⟩
  intro tmax tmin rain h
  rw [SW_MKV_today] at h
  rcases hm : mvnorm rsqrt z1 z2 (mp.uTmax (doy2week (doy0 + 1)))
      (mp.uTmin (doy2week (doy0 + 1))) (mp.vTmaxVar (doy2week (doy0 + 1)))
      (mp.vTminVar (doy2week (doy0 + 1)))
      (mp.vCovar (doy2week (doy0 + 1))) with _ | tp
  · rw [hm] at h; exact absurd h (by simp)
  · rw [hm] at h
    simp only [Option.some.injEq, Prod.mk.injEq] at h
    obtain ⟨h1, h2, _⟩ := h
    rw [← h1, ← h2]
    exact hcw _ _ _ _ _ _ _

/-- Witness for C9: the all-zero parameter set and zero draws yield
some (0, 0, 0), and the theorem gives 0 ≤ 0. -/
theorem C9_markov_tmin_le_tmax_witness :
    (SW_MKV_today (fun _ => 0) (fun q => q)
        ⟨fun _ => 0, fun _ => 0, fun _ => 0, fun _ => 0, fun _ => 0,
         fun _ => 0, fun _ => 0, fun _ => 0, fun _ => 0, fun _ => 0,
         fun _ => 0, fun _ => 0, fun _ => 0⟩ 0 0 0 0 0 0
      = some (0, 0, 0))
    ∧ (0 : ℚ) ≤ 0 :=
  ⟨by norm_num [SW_MKV_today, mvnorm, temp_correct_wetdry],
   (C9_markov_tmin_le_tmax (fun _ => 0) (fun q => q)
      ⟨fun _ => 0, fun _ => 0, fun _ => 0, fun _ => 0, fun _ => 0,
       fun _ => 0, fun _ => 0, fun _ => 0, fun _ => 0, fun _ => 0,
       fun _ => 0, fun _ => 0, fun _ => 0⟩ 0 0 0 0 0 0).2.2 0 0 0
     (by norm_num [SW_MKV_today, mvnorm, temp_correct_wetdry])⟩

/- ====================== Theorem: C10 ====================== -/

/-- The upward sweep excluding its final j = 0 step: indices k, ..., 1. -/
def pushHighRest (swcsat : ℕ → ℚ) : ℕ → FlowSt → FlowSt
  | 0, s => s
  | k+1, s => pushHighRest swcsat k (pushStepHigh swcsat s (k+1))

/-- The low-infiltration upward sweep excluding its final j = 0 step. -/
def pushLowRest (swcsat : ℕ → ℚ) : ℕ → FlowSt → FlowSt
  | 0, s => s
  | k+1, s => pushLowRest swcsat k (pushStepLow swcsat s (k+1))

theorem pushHighGo_decomp (swcsat : ℕ → ℚ) :
    ∀ (k : ℕ) (s : FlowSt),
      pushHighGo swcsat k s = pushStepHigh swcsat (pushHighRest swcsat k s) 0 := by
  intro k
  induction k with
  | zero => intro s; rfl
  | succ n ih => intro s; exact ih (pushStepHigh swcsat s (n+1))

theorem pushLowGo_decomp (swcsat : ℕ → ℚ) :
    ∀ (k : ℕ) (s : FlowSt),
      pushLowGo swcsat k s = pushStepLow swcsat (pushLowRest swcsat k s) 0 := by
  intro k
  induction k with
  | zero => intro s; rfl
  | succ n ih => intro s; exact ih (pushStepLow swcsat s (n+1))

theorem satPercStep_sw (frozen : ℕ → Bool) (swcfc imperm : ℕ → ℚ)
    (nlyrs : ℕ) (s : FlowSt) (i : ℕ) :
    (satPercStep frozen swcfc imperm nlyrs s i).standingWater
      = s.standingWater := by
  by_cases hlt : i < nlyrs - 1
  · simp only [satPercStep, if_pos hlt]
  · simp only [satPercStep, if_neg hlt]

theorem satPerc_sw (frozen : ℕ → Bool) (swcfc imperm : ℕ → ℚ) (nlyrs : ℕ)
    (s : FlowSt) :
    (satPerc frozen swcfc imperm nlyrs s).standingWater = s.standingWater := by
  refine foldl_inv (fun t => t.standingWater = s.standingWater) _ _ ?_ s rfl
  intro t a _ ht
  rw [satPercStep_sw, ht]

theorem unsatPercStep_sw (fexp : ℚ → ℚ) (frozen : ℕ → Bool)
    (swcfc width swcmin imperm : ℕ → ℚ) (sdrainpar sdraindpth : ℚ)
    (nlyrs : ℕ) (s : FlowSt) (i : ℕ) :
    (unsatPercStep fexp frozen swcfc width swcmin imperm sdrainpar sdraindpth
      nlyrs s i).standingWater = s.standingWater := by
  by_cases hlt : i < nlyrs - 1
  · simp only [unsatPercStep, if_pos hlt]
  · simp only [unsatPercStep, if_neg hlt]

theorem unsatPerc_sw (fexp : ℚ → ℚ) (frozen : ℕ → Bool)
    (swcfc width swcmin imperm : ℕ → ℚ) (sdrainpar sdraindpth : ℚ)
    (nlyrs : ℕ) (s : FlowSt) :
    (unsatPerc fexp frozen swcfc width swcmin imperm sdrainpar sdraindpth
      nlyrs s).standingWater = s.standingWater := by
  refine foldl_inv (fun t => t.standingWater = s.standingWater) _ _ ?_ s rfl
  intro t a _ ht
  rw [unsatPercStep_sw, ht]

theorem pushStepHigh_sw_pos (swcsat : ℕ → ℚ) (s : FlowSt) (j : ℕ)
    (hj : 0 < j) :
    (pushStepHigh swcsat s j).standingWater = s.standingWater := by
  by_cases hgt : s.swc j > swcsat j
  · simp only [pushStepHigh, if_pos hgt, if_pos hj]
  · simp only [pushStepHigh, if_neg hgt]

theorem pushStepLow_sw_pos (swcsat : ℕ → ℚ) (s : FlowSt) (j : ℕ)
    (hj : 0 < j) :
    (pushStepLow swcsat s j).standingWater = s.standingWater := by
  by_cases hgt : s.swc j > swcsat j
  · simp only [pushStepLow, if_pos hgt, if_pos hj]
  · simp only [pushStepLow, if_neg hgt]

theorem pushHighRest_sw (swcsat : ℕ → ℚ) :
    ∀ (k : ℕ) (s : FlowSt),
      (pushHighRest swcsat k s).standingWater = s.standingWater := by
  intro k
  induction k with
  | zero => intro s; rfl
  | succ n ih =>
    intro s
    rw [pushHighRest, ih, pushStepHigh_sw_pos _ _ _ (Nat.succ_pos n)]

theorem pushLowRest_sw (swcsat : ℕ → ℚ) :
    ∀ (k : ℕ) (s : FlowSt),
      (pushLowRest swcsat k s).standingWater = s.standingWater := by
  intro k
  induction k with
  | zero => intro s; rfl
  | succ n ih =>
    intro s
    rw [pushLowRest, ih, pushStepLow_sw_pos _ _ _ (Nat.succ_pos n)]

/-- C10: `infiltrate_water_high` discards the incoming standing-water value
(the whole result is independent of it) and returns, by assignment, exactly
the over-saturation excess that its sweep pushes out of layer 0;
`infiltrate_water_low` instead ADDS its layer-0 excess to the incoming
standing-water value. -/
theorem C10_standing_water_semantics (fexp : ℚ → ℚ) (frozen : ℕ → Bool)
    (swcfc swcsat imperm width swcmin : ℕ → ℚ)
    (pptleft sdrainpar sdraindpth : ℚ) (nlyrs : ℕ) (s : FlowSt) (w : ℚ) :
    (infiltrate_water_high frozen swcfc swcsat imperm pptleft nlyrs
        { s with standingWater := w }
      = infiltrate_water_high frozen swcfc swcsat imperm pptleft nlyrs s)
    ∧ (infiltrate_water_high frozen swcfc swcsat imperm pptleft nlyrs
        s).standingWater
      = max 0 ((pushHighRest swcsat nlyrs
          (satPerc frozen swcfc imperm nlyrs (highEntry pptleft s))).swc 0
          - swcsat 0)
    ∧ (infiltrate_water_low fexp frozen swcfc width swcmin swcsat imperm
        sdrainpar sdraindpth nlyrs s).standingWater
      = s.standingWater
        + max 0 ((pushLowRest swcsat nlyrs
            (unsatPerc fexp frozen swcfc width swcmin imperm sdrainpar
              sdraindpth nlyrs s)).swc 0 - swcsat 0) := by
  have hentry : highEntry pptleft { s with standingWater := w }
      = highEntry pptleft s := rfl
  refine ⟨?_, ?_, ?_⟩
  · rw [infiltrate_water_high, infiltrate_water_high, hentry]
  · rw [infiltrate_water_high, pushHighGo_decomp]
    set t := pushHighRest swcsat nlyrs
      (satPerc frozen swcfc imperm nlyrs (highEntry pptleft s)) with ht
    have hsw : t.standingWater = 0 := by
      rw [ht, pushHighRest_sw, satPerc_sw]
      rfl
    by_cases hgt : t.swc 0 > swcsat 0
    · simp only [pushStepHigh, if_pos hgt, if_neg (lt_irrefl 0)]
      exact (max_eq_right (by linarith)).symm
    · simp only [pushStepHigh, if_neg hgt]
      rw [hsw]
      exact (max_eq_left (by linarith)).symm
  · rw [infiltrate_water_low, pushLowGo_decomp]
    set t := pushLowRest swcsat nlyrs
      (unsatPerc fexp frozen swcfc width swcmin imperm sdrainpar sdraindpth
        nlyrs s) with ht
    have hsw : t.standingWater = s.standingWater := by
      rw [ht, pushLowRest_sw, unsatPerc_sw]
    by_cases hgt : t.swc 0 > swcsat 0
    · simp only [pushStepLow, if_pos hgt, if_neg (lt_irrefl 0)]
      rw [hsw]
      have hmx : max 0 (t.swc 0 - swcsat 0) = t.swc 0 - swcsat 0 :=
        max_eq_right (by linarith)
      rw [hmx]
    · simp only [pushStepLow, if_neg hgt]
      rw [hsw]
      have hmx : max 0 (t.swc 0 - swcsat 0) = 0 := max_eq_left (by linarith)
      rw [hmx, add_zero]

/- ====================== Theorem: C3 ====================== -/

/-- C3 evaluation: the over-saturation sweep of both infiltration routines is
`for (j = nlyrs; j >= 0; j--)`, i.e. it starts one past the last layer.  With
nlyrs = 2 and identical in-profile inputs (layers 0 and 1 all equal), the
result at layer 1 depends on the memory cells swc[2]/swcsat[2] outside
0..nlyrs-1: junk swc[2] = 7 over swcsat[2] = 0 is pushed into layer 1
(giving 5 after the layer-1 clamp), junk swc[2] = 0 leaves layer 1 at 1. -/
theorem C3_sweep_reads_past_profile :
    (∀ i, i < 2 →
      (fun i => if i = 2 then (7:ℚ) else 1) i
        = (fun i => if i = 2 then (0:ℚ) else 1) i)
    ∧ (infiltrate_water_high (fun _ => false) (fun _ => 10)
        (fun i => if i < 2 then 5 else 0) (fun _ => 0) 0 2
        ⟨fun i => if i = 2 then 7 else 1, fun _ => 0, 0, 0⟩).swc 1 = 5
    ∧ (infiltrate_water_high (fun _ => false) (fun _ => 10)
        (fun i => if i < 2 then 5 else 0) (fun _ => 0) 0 2
        ⟨fun i => if i = 2 then 0 else 1, fun _ => 0, 0, 0⟩).swc 1 = 1
    ∧ (infiltrate_water_low (fun _ => 1) (fun _ => false) (fun _ => 10)
        (fun _ => 10) (fun _ => 0) (fun i => if i < 2 then 5 else 0)
        (fun _ => 0) 0 0 2
        ⟨fun i => if i = 2 then 7 else 1, fun _ => 0, 0, 0⟩).swc 1 = 5
    ∧ (infiltrate_water_low (fun _ => 1) (fun _ => false) (fun _ => 10)
        (fun _ => 10) (fun _ => 0) (fun i => if i < 2 then 5 else 0)
        (fun _ => 0) 0 0 2
        ⟨fun i => if i = 2 then 0 else 1, fun _ => 0, 0, 0⟩).swc 1 = 1 := by
  refine ⟨by decide, ?_, ?_, ?_, ?_⟩ <;>
    norm_num [infiltrate_water_high, infiltrate_water_low, highEntry,
      satPerc, satPercStep, unsatPerc, unsatPercStep, pushHighGo,
      pushStepHigh, pushLowGo, pushStepLow, upd, List.range_succ]

/- ====================== Claim C1: bound lemmas ====================== -/

/-- Tolerance of the bounded soil-water invariant (1e-9). -/
def epsSWC : ℚ := 1/1000000000

theorem epsSWC_nonneg : 0 ≤ epsSWC := by norm_num [epsSWC]

/-- A saturated-percolation withdrawal max(0, c*(x - fc)) with c ∈ [0,1]
never drops x below min(x, fc), hence not below the soft floor. -/
theorem satDrain_floor (c x fc mn e : ℚ) (hc0 : 0 ≤ c) (hc1 : c ≤ 1)
    (hmf : mn ≤ fc) (hx : mn - e ≤ x) (he : 0 ≤ e) :
    mn - e ≤ x - max 0 (c * (x - fc)) := by
  rcases le_or_lt x fc with h | h
  · have hnp : c * (x - fc) ≤ 0 := by
      have := mul_le_mul_of_nonneg_left (show x - fc ≤ 0 by linarith) hc0
      simpa using this
    rw [max_eq_left hnp]
    linarith
  · have h0 : 0 ≤ c * (x - fc) := mul_nonneg hc0 (by linarith)
    rw [max_eq_right h0]
    have hkey : 0 ≤ (1 - c) * (x - fc) :=
      mul_nonneg (by linarith) (by linarith)
    nlinarith

/-- The combined conductivity factor of a percolation step lies in [0,1]. -/
theorem condFactor_mem (frozen : Bool) (imp : ℚ) (h0 : 0 ≤ imp)
    (h1 : imp ≤ 1) :
    0 ≤ (if frozen then (1:ℚ)/100 else 1) * (1 - imp)
      ∧ (if frozen then (1:ℚ)/100 else 1) * (1 - imp) ≤ 1 := by
  cases frozen <;> norm_num <;> constructor <;> nlinarith

/-- Lower bound preserved by the saturated-percolation loop of
`infiltrate_water_high`. -/
theorem satPerc_lower (frozen : ℕ → Bool) (swcfc imperm swcmin : ℕ → ℚ)
    (nlyrs : ℕ)
    (himp : ∀ i, i < nlyrs → 0 ≤ imperm i ∧ imperm i ≤ 1)
    (hmf : ∀ i, i < nlyrs → swcmin i ≤ swcfc i)
    (s : FlowSt) (hs : ∀ i, i < nlyrs → swcmin i - epsSWC ≤ s.swc i) :
    ∀ i, i < nlyrs →
      swcmin i - epsSWC ≤ (satPerc frozen swcfc imperm nlyrs s).swc i := by
  refine foldl_inv (fun t => ∀ i, i < nlyrs → swcmin i - epsSWC ≤ t.swc i)
    _ _ ?_ s hs
  intro t a ha hP
  have haN : a < nlyrs := List.mem_range.mp ha
  have hcond := condFactor_mem (frozen a) (imperm a) (himp a haN).1 (himp a haN).2
  have hfloor : swcmin a - epsSWC
      ≤ t.swc a - max 0 ((if frozen a then (1:ℚ)/100 else 1) * (1 - imperm a)
          * (t.swc a - swcfc a)) :=
    satDrain_floor ((if frozen a then (1:ℚ)/100 else 1) * (1 - imperm a))
      (t.swc a) (swcfc a) (swcmin a) epsSWC hcond.1 hcond.2 (hmf a haN)
      (hP a haN) epsSWC_nonneg
  have hd0 : (0:ℚ) ≤ max 0 ((if frozen a then (1:ℚ)/100 else 1)
      * (1 - imperm a) * (t.swc a - swcfc a)) := le_max_left _ _
  intro j hj
  by_cases hlt : a < nlyrs - 1
  · simp only [satPercStep, if_pos hlt]
    by_cases hja : j = a
    · subst hja
      rw [upd_same]
      exact hfloor
    · rw [upd_ne _ _ hja]
      by_cases hja1 : j = a + 1
      · subst hja1
        rw [upd_same]
        have := hP (a+1) hj
        linarith
      · rw [upd_ne _ _ hja1]
        exact hP j hj
  · simp only [satPercStep, if_neg hlt]
    by_cases hja : j = a
    · subst hja
      rw [upd_same]
      exact hfloor
    · rw [upd_ne _ _ hja]
      exact hP j hj

/-- Lower bound preserved by the unsaturated-percolation loop of
`infiltrate_water_low`, given nonnegative drainage parameter and exp. -/
theorem unsatPerc_lower (fexp : ℚ → ℚ) (frozen : ℕ → Bool)
    (swcfc width swcmin imperm : ℕ → ℚ) (sdrainpar sdraindpth : ℚ)
    (nlyrs : ℕ)
    (himp : ∀ i, i < nlyrs → 0 ≤ imperm i ∧ imperm i ≤ 1)
    (hsd : 0 ≤ sdrainpar) (hexp : ∀ q, 0 ≤ fexp q)
    (s : FlowSt) (hs : ∀ i, i < nlyrs → swcmin i - epsSWC ≤ s.swc i) :
    ∀ i, i < nlyrs → swcmin i - epsSWC
      ≤ (unsatPerc fexp frozen swcfc width swcmin imperm sdrainpar sdraindpth
          nlyrs s).swc i := by
  refine foldl_inv (fun t => ∀ i, i < nlyrs → swcmin i - epsSWC ≤ t.swc i)
    _ _ ?_ s hs
  intro t a ha hP
  have haN : a < nlyrs := List.mem_range.mp ha
  have hcond := condFactor_mem (frozen a) (imperm a) (himp a haN).1 (himp a haN).2
  have hd0 : 0 ≤ (if t.swc a ≤ swcmin a then (0:ℚ)
      else (if frozen a then (1:ℚ)/100 else 1) * (1 - imperm a)
        * min (max 0 (t.swc a - swcmin a))
          (if t.swc a > swcfc a then sdrainpar
           else sdrainpar * fexp ((t.swc a - swcfc a) * sdraindpth / width a))) := by
    split
    · exact le_refl 0
    · refine mul_nonneg hcond.1 (le_min (le_max_left _ _) ?_)
      split
      · exact hsd
      · exact mul_nonneg hsd (hexp _)
  have hfloor : swcmin a - epsSWC
      ≤ t.swc a - (if t.swc a ≤ swcmin a then (0:ℚ)
        else (if frozen a then (1:ℚ)/100 else 1) * (1 - imperm a)
          * min (max 0 (t.swc a - swcmin a))
            (if t.swc a > swcfc a then sdrainpar
             else sdrainpar * fexp ((t.swc a - swcfc a) * sdraindpth / width a))) := by
    have hP' := hP a haN
    have he := epsSWC_nonneg
    split
    · linarith
    · next hle =>
      push_neg at hle
      have havail : max 0 (t.swc a - swcmin a) = t.swc a - swcmin a :=
        max_eq_right (by linarith)
      have hmin0 : 0 ≤ min (max 0 (t.swc a - swcmin a))
          (if t.swc a > swcfc a then sdrainpar
           else sdrainpar * fexp ((t.swc a - swcfc a) * sdraindpth / width a)) := by
        refine le_min (le_max_left _ _) ?_
        split
        · exact hsd
        · exact mul_nonneg hsd (hexp _)
      have hminle : min (max 0 (t.swc a - swcmin a))
          (if t.swc a > swcfc a then sdrainpar
           else sdrainpar * fexp ((t.swc a - swcfc a) * sdraindpth / width a))
          ≤ t.swc a - swcmin a :=
        le_trans (min_le_left _ _) (le_of_eq havail)
      have hdle : (if frozen a then (1:ℚ)/100 else 1) * (1 - imperm a)
          * min (max 0 (t.swc a - swcmin a))
            (if t.swc a > swcfc a then sdrainpar
             else sdrainpar * fexp ((t.swc a - swcfc a) * sdraindpth / width a))
          ≤ t.swc a - swcmin a := by
        have h1 := mul_le_mul_of_nonneg_right hcond.2 hmin0
        rw [one_mul] at h1
        linarith
      linarith
  intro j hj
  by_cases hlt : a < nlyrs - 1
  · simp only [unsatPercStep, if_pos hlt]
    by_cases hja : j = a
    · subst hja
      rw [upd_same]
      exact hfloor
    · rw [upd_ne _ _ hja]
      by_cases hja1 : j = a + 1
      · subst hja1
        rw [upd_same]
        have := hP (a+1) hj
        linarith
      · rw [upd_ne _ _ hja1]
        exact hP j hj
  · simp only [unsatPercStep, if_neg hlt]
    by_cases hja : j = a
    · subst hja
      rw [upd_same, max_eq_left hd0]
      exact hfloor
    · rw [upd_ne _ _ hja]
      exact hP j hj

/-- One sweep step clamps the visited layer to its saturation value. -/
theorem pushStepHigh_swc_self (swcsat : ℕ → ℚ) (s : FlowSt) (j : ℕ) :
    (pushStepHigh swcsat s j).swc j = min (s.swc j) (swcsat j) := by
  by_cases hgt : s.swc j > swcsat j
  · by_cases hj : 0 < j
    · have hne : j ≠ j - 1 := by omega
      simp only [pushStepHigh, if_pos hgt, if_pos hj]
      rw [upd_ne _ _ hne, upd_same, min_eq_right (le_of_lt hgt)]
      ring
    · simp only [pushStepHigh, if_pos hgt, if_neg hj]
      rw [upd_same, min_eq_right (le_of_lt hgt)]
      ring
  · simp only [pushStepHigh, if_neg hgt]
    push_neg at hgt
    rw [min_eq_left hgt]

/-- A sweep step never decreases the water of any other layer. -/
theorem pushStepHigh_swc_mono (swcsat : ℕ → ℚ) (s : FlowSt) (j i : ℕ)
    (hij : i ≠ j) : s.swc i ≤ (pushStepHigh swcsat s j).swc i := by
  by_cases hgt : s.swc j > swcsat j
  · by_cases hj : 0 < j
    · simp only [pushStepHigh, if_pos hgt, if_pos hj]
      by_cases hij1 : i = j - 1
      · subst hij1
        rw [upd_same, upd_ne _ _ hij]
        linarith
      · rw [upd_ne _ _ hij1, upd_ne _ _ hij]
    · simp only [pushStepHigh, if_pos hgt, if_neg hj]
      rw [upd_ne _ _ hij]
  · simp only [pushStepHigh, if_neg hgt]
    exact le_refl _

/-- A sweep step at index j leaves layers other than j and j-1 unchanged. -/
theorem pushStepHigh_swc_untouched (swcsat : ℕ → ℚ) (s : FlowSt) (j i : ℕ)
    (hij : i ≠ j) (hij1 : i ≠ j - 1) :
    (pushStepHigh swcsat s j).swc i = s.swc i := by
  by_cases hgt : s.swc j > swcsat j
  · by_cases hj : 0 < j
    · simp only [pushStepHigh, if_pos hgt, if_pos hj]
      rw [upd_ne _ _ hij1, upd_ne _ _ hij]
    · simp only [pushStepHigh, if_pos hgt, if_neg hj]
      rw [upd_ne _ _ hij]
  · simp only [pushStepHigh, if_neg hgt]

/-- Full bound analysis of the upward sweep: the soft floor is preserved,
every layer index up to the sweep start is clamped to saturation, and layers
above the sweep start are untouched. -/
theorem pushHighGo_bounds (swcsat swcmin : ℕ → ℚ) (nlyrs : ℕ)
    (hms : ∀ j, j < nlyrs → swcmin j ≤ swcsat j) :
    ∀ (k : ℕ) (s : FlowSt),
      (∀ j, j < nlyrs → swcmin j - epsSWC ≤ s.swc j) →
      (∀ j, j < nlyrs → swcmin j - epsSWC ≤ (pushHighGo swcsat k s).swc j)
      ∧ (∀ j, j < nlyrs → j ≤ k → (pushHighGo swcsat k s).swc j ≤ swcsat j)
      ∧ (∀ j, k < j → (pushHighGo swcsat k s).swc j = s.swc j) := by
  have hstepLB : ∀ (s : FlowSt) (m : ℕ),
      (∀ j, j < nlyrs → swcmin j - epsSWC ≤ s.swc j) →
      (∀ j, j < nlyrs → swcmin j - epsSWC ≤ (pushStepHigh swcsat s m).swc j) := by
    intro s m hLB j hj
    by_cases hjm : j = m
    · subst hjm
      rw [pushStepHigh_swc_self]
      have he := epsSWC_nonneg
      exact le_min (hLB j hj) (by have := hms j hj; linarith)
    · exact le_trans (hLB j hj) (pushStepHigh_swc_mono swcsat s m j hjm)
  intro k
  induction k with
  | zero =>
    intro s hLB
    refine ⟨hstepLB s 0 hLB, ?_, ?_⟩
    · intro j hj hj0
      have hj0' : j = 0 := Nat.le_zero.mp hj0
      subst hj0'
      rw [pushHighGo, pushStepHigh_swc_self]
      exact min_le_right _ _
    · intro j hj
      rw [pushHighGo]
      exact pushStepHigh_swc_untouched swcsat s 0 j (by omega) (by omega)
  | succ n ih =>
    intro s hLB
    have hLB1 := hstepLB s (n+1) hLB
    obtain ⟨ihLB, ihUB, ihUn⟩ := ih (pushStepHigh swcsat s (n+1)) hLB1
    refine ⟨ihLB, ?_, ?_⟩
    · intro j hj hjk
      rcases Nat.lt_or_ge j (n+1) with hlt | hge
      · exact ihUB j hj (Nat.lt_succ_iff.mp hlt)
      · have hje : j = n + 1 := le_antisymm hjk hge
        subst hje
        rw [show pushHighGo swcsat (n+1) s
            = pushHighGo swcsat n (pushStepHigh swcsat s (n+1)) from rfl]
        rw [ihUn (n+1) (Nat.lt_succ_self n), pushStepHigh_swc_self]
        exact min_le_right _ _
    · intro j hjk
      rw [show pushHighGo swcsat (n+1) s
          = pushHighGo swcsat n (pushStepHigh swcsat s (n+1)) from rfl]
      rw [ihUn j (by omega),
        pushStepHigh_swc_untouched swcsat s (n+1) j (by omega) (by omega)]

/-- The soil-water component of the low sweep step coincides with that of the
high sweep step (they differ only in the standing-water bookkeeping). -/
theorem pushStepLow_swc_eq (swcsat : ℕ → ℚ) (s : FlowSt) (j : ℕ) :
    (pushStepLow swcsat s j).swc = (pushStepHigh swcsat s j).swc := by
  by_cases hgt : s.swc j > swcsat j
  · simp only [pushStepLow, pushStepHigh, if_pos hgt]
    by_cases hj : 0 < j
    · rw [if_pos hj, if_pos hj]
    · rw [if_neg hj, if_neg hj]
  · simp only [pushStepLow, pushStepHigh, if_neg hgt]

/-- The high sweep step's soil-water output depends only on the soil-water
input. -/
theorem pushStepHigh_swc_congr (swcsat : ℕ → ℚ) (s t : FlowSt) (j : ℕ)
    (h : s.swc = t.swc) :
    (pushStepHigh swcsat s j).swc = (pushStepHigh swcsat t j).swc := by
  by_cases hgt : t.swc j > swcsat j
  · by_cases hj : 0 < j
    · simp only [pushStepHigh, h, if_pos hgt, if_pos hj]
    · simp only [pushStepHigh, h, if_pos hgt, if_neg hj]
  · simp only [pushStepHigh, h, if_neg hgt]

/-- The low sweep's soil-water output coincides with the high sweep's. -/
theorem pushLowGo_swc_eq (swcsat : ℕ → ℚ) :
    ∀ (k : ℕ) (s t : FlowSt), s.swc = t.swc →
      (pushLowGo swcsat k s).swc = (pushHighGo swcsat k t).swc := by
  intro k
  induction k with
  | zero =>
    intro s t h
    rw [pushLowGo, pushHighGo, pushStepLow_swc_eq]
    exact pushStepHigh_swc_congr swcsat s t 0 h
  | succ n ih =>
    intro s t h
    rw [pushLowGo, pushHighGo]
    refine ih _ _ ?_
    rw [pushStepLow_swc_eq]
    exact pushStepHigh_swc_congr swcsat s t (n+1) h

/-- Both bounds preserved by `remove_from_soil` under the removal data model
(nonnegative coefficients and rate, positive soil-water potentials). -/
theorem remove_from_soil_bounds (swpf : ℕ → ℚ → ℚ) (frozen : ℕ → Bool)
    (coeff swcmin swcsat : ℕ → ℚ) (rate : ℚ) (nlyrs : ℕ)
    (hco : ∀ i, i < nlyrs → 0 ≤ coeff i)
    (hswp : ∀ i y, 0 < swpf i y) (hrate : 0 ≤ rate)
    (s : RemoveSt)
    (hs : ∀ i, i < nlyrs → swcmin i - epsSWC ≤ s.swc i
      ∧ s.swc i ≤ swcsat i + epsSWC) :
    ∀ i, i < nlyrs →
      swcmin i - epsSWC
          ≤ (remove_from_soil swpf frozen coeff swcmin rate nlyrs s).swc i
      ∧ (remove_from_soil swpf frozen coeff swcmin rate nlyrs s).swc i
          ≤ swcsat i + epsSWC := by
  rw [remove_from_soil]
  split
  · exact hs
  · next hsum =>
    have hsum0 : 0 ≤ ((List.range nlyrs).map
        (fun i => coeff i / swpf i (s.swc i))).sum := by
      refine List.sum_nonneg ?_
      intro x hx
      obtain ⟨i, hi, hix⟩ := List.mem_map.mp hx
      rw [← hix]
      exact div_nonneg (hco i (List.mem_range.mp hi)) (hswp _ _).le
    have hsumpos : 0 < ((List.range nlyrs).map
        (fun i => coeff i / swpf i (s.swc i))).sum :=
      lt_of_le_of_ne hsum0 (fun h => hsum h.symm)
    refine foldl_inv (fun t => ∀ i, i < nlyrs →
      swcmin i - epsSWC ≤ t.swc i ∧ t.swc i ≤ swcsat i + epsSWC) _ _ ?_ s hs
    intro t a ha hP
    have haN : a < nlyrs := List.mem_range.mp ha
    by_cases hfz : frozen a
    · simp only [if_pos hfz]
      exact hP
    · simp only [if_neg hfz]
      intro i hi
      by_cases hia : i = a
      · subst hia
        rw [upd_same]
        have hq0 : 0 ≤ coeff i / swpf i (s.swc i)
            / ((List.range nlyrs).map (fun i => coeff i / swpf i (s.swc i))).sum
            * rate :=
          mul_nonneg (div_nonneg
            (div_nonneg (hco i hi) (hswp _ _).le) hsum0) hrate
        have hqy0 : 0 ≤ min (coeff i / swpf i (s.swc i)
            / ((List.range nlyrs).map (fun i => coeff i / swpf i (s.swc i))).sum
            * rate) (max 0 (t.swc i - swcmin i)) :=
          le_min hq0 (le_max_left _ _)
        constructor
        · rcases le_total (t.swc i) (swcmin i) with hcase | hcase
          · have hav : max (0:ℚ) (t.swc i - swcmin i) = 0 :=
              max_eq_left (by linarith)
            have hqy : min (coeff i / swpf i (s.swc i)
                / ((List.range nlyrs).map
                  (fun i => coeff i / swpf i (s.swc i))).sum * rate)
                (max 0 (t.swc i - swcmin i)) = 0 := by
              rw [hav]
              exact min_eq_right hq0
            rw [hqy]
            have := (hP i hi).1
            linarith
          · have hav : max (0:ℚ) (t.swc i - swcmin i) = t.swc i - swcmin i :=
              max_eq_right (by linarith)
            rw [hav]
            have hle := min_le_right (coeff i / swpf i (s.swc i)
                / ((List.range nlyrs).map
                  (fun i => coeff i / swpf i (s.swc i))).sum * rate)
                (t.swc i - swcmin i)
            have he := epsSWC_nonneg
            linarith
        · have := (hP i hi).2
          linarith
      · rw [upd_ne _ _ hia]
        exact hP i hi

/-- C1 (amended): under the per-layer data model strengthened with
SWC_min ≤ SWC_sat and the natural nonnegativity of the water inputs
(pptleft, removal rate and coefficients, positive soil-water potential
values, nonnegative slow-drainage parameter and exp), the operations
`infiltrate_water_high`, `remove_from_soil` and `infiltrate_water_low` each
map a state satisfying SWC_min[i] - 1e-9 ≤ SWC[i] ≤ SWC_sat[i] + 1e-9 for
all profile layers to a state satisfying the same bounds.
(`hydraulic_redistribution` is excluded: it violates the upper bound, see
the counterexample.) -/
theorem C1_bounded_swc_invariant (frozen : ℕ → Bool)
    (swcfc swcsat imperm swcmin swcwp width coeff : ℕ → ℚ)
    (swpf : ℕ → ℚ → ℚ) (fexp : ℚ → ℚ)
    (pptleft rate sdrainpar sdraindpth : ℚ) (nlyrs : ℕ)
    (hmin0 : ∀ i, i < nlyrs → 0 ≤ swcmin i)
    (hmf : ∀ i, i < nlyrs → swcmin i ≤ swcfc i)
    (hwps : ∀ i, i < nlyrs → swcwp i ≤ swcsat i)
    (hms : ∀ i, i < nlyrs → swcmin i ≤ swcsat i)
    (himp : ∀ i, i < nlyrs → 0 ≤ imperm i ∧ imperm i ≤ 1)
    (hppt : 0 ≤ pptleft) (hrate : 0 ≤ rate)
    (hco : ∀ i, i < nlyrs → 0 ≤ coeff i) (hswp : ∀ i y, 0 < swpf i y)
    (hsd : 0 ≤ sdrainpar) (hexp : ∀ q, 0 ≤ fexp q)
    (sH sL : FlowSt) (r : RemoveSt)
    (hH : ∀ i, i < nlyrs → swcmin i - epsSWC ≤ sH.swc i
      ∧ sH.swc i ≤ swcsat i + epsSWC)
    (hR : ∀ i, i < nlyrs → swcmin i - epsSWC ≤ r.swc i
      ∧ r.swc i ≤ swcsat i + epsSWC)
    (hL : ∀ i, i < nlyrs → swcmin i - epsSWC ≤ sL.swc i
      ∧ sL.swc i ≤ swcsat i + epsSWC) :
    (∀ i, i < nlyrs →
      swcmin i - epsSWC
          ≤ (infiltrate_water_high frozen swcfc swcsat imperm pptleft nlyrs
              sH).swc i
      ∧ (infiltrate_water_high frozen swcfc swcsat imperm pptleft nlyrs
          sH).swc i ≤ swcsat i + epsSWC)
    ∧ (∀ i, i < nlyrs →
      swcmin i - epsSWC
          ≤ (remove_from_soil swpf frozen coeff swcmin rate nlyrs r).swc i
      ∧ (remove_from_soil swpf frozen coeff swcmin rate nlyrs r).swc i
          ≤ swcsat i + epsSWC)
    ∧ (∀ i, i < nlyrs →
      swcmin i - epsSWC
          ≤ (infiltrate_water_low fexp frozen swcfc width swcmin swcsat
              imperm sdrainpar sdraindpth nlyrs sL).swc i
      ∧ (infiltrate_water_low fexp frozen swcfc width swcmin swcsat imperm
          sdrainpar sdraindpth nlyrs sL).swc i ≤ swcsat i + epsSWC) := by
  have he := epsSWC_nonneg
  refine ⟨?_, ?_, ?_⟩
  · -- infiltrate_water_high
    have hentry : ∀ i, i < nlyrs →
        swcmin i - epsSWC ≤ (highEntry pptleft sH).swc i := by
      intro i hi
      by_cases h0 : i = 0
      · subst h0
        simp only [highEntry]
        rw [upd_same]
        have := (hH 0 hi).1
        linarith
      · simp only [highEntry]
        rw [upd_ne _ _ h0]
        exact (hH i hi).1
    have hperc := satPerc_lower frozen swcfc imperm swcmin nlyrs himp hmf
      (highEntry pptleft sH) hentry
    obtain ⟨hLB, hUB, _⟩ := pushHighGo_bounds swcsat swcmin nlyrs hms nlyrs
      (satPerc frozen swcfc imperm nlyrs (highEntry pptleft sH)) hperc
    intro i hi
    rw [infiltrate_water_high]
    exact ⟨hLB i hi, le_trans (hUB i hi (le_of_lt hi)) (by linarith)⟩
  · exact remove_from_soil_bounds swpf frozen coeff swcmin swcsat rate nlyrs
      hco hswp hrate r hR
  · -- infiltrate_water_low
    have hperc := unsatPerc_lower fexp frozen swcfc width swcmin imperm
      sdrainpar sdraindpth nlyrs himp hsd hexp sL
      (fun i hi => (hL i hi).1)
    obtain ⟨hLB, hUB, _⟩ := pushHighGo_bounds swcsat swcmin nlyrs hms nlyrs
      (unsatPerc fexp frozen swcfc width swcmin imperm sdrainpar sdraindpth
        nlyrs sL) hperc
    have hswcEq : (infiltrate_water_low fexp frozen swcfc width swcmin swcsat
        imperm sdrainpar sdraindpth nlyrs sL).swc
        = (pushHighGo swcsat nlyrs
            (unsatPerc fexp frozen swcfc width swcmin imperm sdrainpar
              sdraindpth nlyrs sL)).swc := by
      rw [infiltrate_water_low]
      exact pushLowGo_swc_eq swcsat nlyrs _ _ rfl
    intro i hi
    rw [hswcEq]
    exact ⟨hLB i hi, le_trans (hUB i hi (le_of_lt hi)) (by linarith)⟩

/-- Witness for C1 at a concrete two-layer profile (swc 4 everywhere,
min 1, fc 3, sat 5, ppt 2, rate 1/2). -/
theorem C1_bounded_swc_invariant_witness :
    ((0:ℚ) ≤ 2) ∧
    ((∀ i, i < 2 →
      (1:ℚ) - epsSWC
          ≤ (infiltrate_water_high (fun _ => false) (fun _ => 3) (fun _ => 5)
              (fun _ => 0) 2 2 ⟨fun _ => 4, fun _ => 0, 0, 0⟩).swc i
      ∧ (infiltrate_water_high (fun _ => false) (fun _ => 3) (fun _ => 5)
          (fun _ => 0) 2 2 ⟨fun _ => 4, fun _ => 0, 0, 0⟩).swc i
          ≤ 5 + epsSWC)
    ∧ (∀ i, i < 2 →
      (1:ℚ) - epsSWC
          ≤ (remove_from_soil (fun _ _ => 1) (fun _ => false) (fun _ => 1/2)
              (fun _ => 1) (1/2) 2 ⟨fun _ => 4, fun _ => 0, 0⟩).swc i
      ∧ (remove_from_soil (fun _ _ => 1) (fun _ => false) (fun _ => 1/2)
          (fun _ => 1) (1/2) 2 ⟨fun _ => 4, fun _ => 0, 0⟩).swc i
          ≤ 5 + epsSWC)
    ∧ (∀ i, i < 2 →
      (1:ℚ) - epsSWC
          ≤ (infiltrate_water_low (fun _ => 1) (fun _ => false) (fun _ => 3)
              (fun _ => 10) (fun _ => 1) (fun _ => 5) (fun _ => 0) (1/50) 1 2
              ⟨fun _ => 4, fun _ => 0, 0, 0⟩).swc i
      ∧ (infiltrate_water_low (fun _ => 1) (fun _ => false) (fun _ => 3)
          (fun _ => 10) (fun _ => 1) (fun _ => 5) (fun _ => 0) (1/50) 1 2
          ⟨fun _ => 4, fun _ => 0, 0, 0⟩).swc i ≤ 5 + epsSWC)) :=
  ⟨by norm_num,
   C1_bounded_swc_invariant (fun _ => false) (fun _ => 3) (fun _ => 5)
     (fun _ => 0) (fun _ => 1) (fun _ => 2) (fun _ => 10) (fun _ => 1/2)
     (fun _ _ => 1) (fun _ => 1) 2 (1/2) (1/50) 1 2
     (fun i _ => by norm_num) (fun i _ => by norm_num) (fun i _ => by norm_num)
     (fun i _ => by norm_num) (fun i _ => by norm_num) (by norm_num)
     (by norm_num) (fun i _ => by norm_num) (fun i y => by norm_num)
     (by norm_num) (fun q => by norm_num)
     ⟨fun _ => 4, fun _ => 0, 0, 0⟩ ⟨fun _ => 4, fun _ => 0, 0, 0⟩
     ⟨fun _ => 4, fun _ => 0, 0⟩
     (fun i _ => by norm_num [epsSWC]) (fun i _ => by norm_num [epsSWC])
     (fun i _ => by norm_num [epsSWC])⟩

/-- Soil-water contents of the C1/C4 counterexample profile. -/
def cxSwc : ℕ → ℚ := fun i => if i = 0 then 5 else if i = 1 then 3 else 10

/-- Saturation values of the C1 counterexample profile. -/
def cxSat : ℕ → ℚ := fun i => if i = 0 then 6 else if i = 1 then 3 else 20

/-- Field-capacity values of the C1 counterexample profile. -/
def cxFc : ℕ → ℚ := fun i => if i ≤ 1 then 2 else 5

/-- Soil-water-potential function of the C1 counterexample: layer 1 is wet
(low potential) at its current content and dry (high potential) at its
wilting point; the other layers sit at potential 5. -/
def cxSwpf : ℕ → ℚ → ℚ := fun i y => if i = 1 then (if 3 ≤ y then 1 else 10) else 5

/-- Counterexample to C1 as stated: a profile satisfying the claim's data
model (0 ≤ SWC_min ≤ SWC_fc, SWC_wp ≤ SWC_sat, impermeability ∈ [0,1], and
even SWC_min ≤ SWC_wp ≤ SWC_fc ≤ SWC_sat) and the entry bounds, on which
`hydraulic_redistribution` pushes the saturated layer 1 (SWC = SWC_sat = 3)
up to 4, violating SWC[1] ≤ SWC_sat[1] + 1e-9: the routine caps losses at
the available water but never caps gains at saturation. -/
theorem C1_hydred_counterexample :
    (∀ i, i < 3 → (0:ℚ) ≤ 0 ∧ (0:ℚ) ≤ cxFc i ∧ (1:ℚ) ≤ cxSat i
      ∧ (0:ℚ) ≤ cxSat i ∧ (1:ℚ) ≤ cxFc i ∧ cxFc i ≤ cxSat i
      ∧ (0:ℚ) ≤ (0:ℚ) ∧ (0:ℚ) ≤ 1)
    ∧ (∀ i, i < 3 → (0:ℚ) - epsSWC ≤ cxSwc i ∧ cxSwc i ≤ cxSat i + epsSWC)
    ∧ ¬ ((hydraulic_redistribution cxSwpf (fun _ _ => 1) (fun _ => false)
          cxSwc (fun _ => 1) (fun _ => 1/2) (12/5) 1 1 1 3).1 1
        ≤ cxSat 1 + epsSWC) := by
  refine ⟨?_, ?_, ?_⟩
  · intro i hi
    interval_cases i <;> norm_num [cxFc, cxSat]
  · intro i hi
    interval_cases i <;> norm_num [cxSwc, cxSat, epsSWC]
  · norm_num [hydraulic_redistribution, hydredMatScaled, hydredScaleStep,
      hydredRowSum, hydredMatPre, hydredPair, relCondroot, cxSwpf, cxSwc,
      cxSat, epsSWC, List.range_succ]

/- ====================== Theorem: C4 ====================== -/

/-- Bridge between the list sums of the embedding and Finset sums. -/
theorem listRangeSum (f : ℕ → ℚ) :
    ∀ n, ((List.range n).map f).sum = ∑ i in Finset.range n, f i := by
  intro n
  induction n with
  | zero => simp
  | succ m ih =>
    rw [List.range_succ, List.map_append, List.sum_append,
      Finset.sum_range_succ, ih]
    simp

/-- The pre-scaling flux matrix is antisymmetric. -/
theorem hydredMatPre_antisymm (swpf : ℕ → ℚ → ℚ) (powe : ℚ → ℚ → ℚ)
    (frozen : ℕ → Bool) (swc swcwp lyrRootCo : ℕ → ℚ)
    (maxCondroot swp50 shapeCond : ℚ) (nlyrs : ℕ) :
    ∀ i j, hydredMatPre swpf powe frozen swc swcwp lyrRootCo maxCondroot
        swp50 shapeCond nlyrs i j
      = - hydredMatPre swpf powe frozen swc swcwp lyrRootCo maxCondroot
          swp50 shapeCond nlyrs j i := by
  intro i j
  unfold hydredMatPre
  by_cases hg : i = 0 ∨ j = 0 ∨ nlyrs ≤ i ∨ nlyrs ≤ j ∨ i = j
  · have hg2 : j = 0 ∨ i = 0 ∨ nlyrs ≤ j ∨ nlyrs ≤ i ∨ j = i := by tauto
    rw [if_pos hg, if_pos hg2]
    ring
  · have hg2 : ¬ (j = 0 ∨ i = 0 ∨ nlyrs ≤ j ∨ nlyrs ≤ i ∨ j = i) := by tauto
    rw [if_neg hg, if_neg hg2]
    have hij : i ≠ j := by tauto
    rcases Nat.lt_or_ge i j with h | h
    · rw [if_pos h, if_neg (by omega : ¬ j < i)]
      ring
    · have h2 : j < i := by omega
      rw [if_neg (by omega : ¬ i < j), if_pos h2]

/-- The diagonal of the flux matrix stays zero through any run of scaling
steps. -/
theorem hydredScale_diag_inv (swc swcwp : ℕ → ℚ) (nlyrs : ℕ) :
    ∀ (l : List ℕ) (m0 : ℕ → ℕ → ℚ), (∀ a, m0 a a = 0) →
      ∀ a, (l.foldl (hydredScaleStep swc swcwp nlyrs) m0) a a = 0 := by
  intro l
  induction l with
  | nil => intro m0 h a; exact h a
  | cons x t ih =>
    intro m0 h a
    rw [List.foldl_cons]
    refine ih _ ?_ a
    intro b
    unfold hydredScaleStep
    split
    · simp [h b]
    · exact h b

/-- The pre-scaling matrix has a zero diagonal. -/
theorem hydredMatPre_diag (swpf : ℕ → ℚ → ℚ) (powe : ℚ → ℚ → ℚ)
    (frozen : ℕ → Bool) (swc swcwp lyrRootCo : ℕ → ℚ)
    (maxCondroot swp50 shapeCond : ℚ) (nlyrs : ℕ) (a : ℕ) :
    hydredMatPre swpf powe frozen swc swcwp lyrRootCo maxCondroot swp50
      shapeCond nlyrs a a = 0 := by
  unfold hydredMatPre
  rw [if_pos (by tauto)]

/-- Division helper for the scaling factor. -/
theorem div_neg_mul_self (a b : ℚ) (hb : b < 0) : a / -b * b = -a := by
  have h : b ≠ 0 := ne_of_lt hb
  have h2 : -b ≠ 0 := neg_ne_zero.mpr h
  field_simp

/-- C4 (amended): before the available-water scaling the pairwise flux
matrix of `hydraulic_redistribution` is antisymmetric, so the sum over all
layers of its row sums is 0; after the scaling loop the LAST row processed
(layer nlyrs-1) loses no more than its available water
max(0, SWC - SWC_wp).  (The cap does NOT hold for every layer: a later
column rescaling can push an earlier row past its cap, see the
counterexample.) -/
theorem C4_hydred_flux_sums (swpf : ℕ → ℚ → ℚ) (powe : ℚ → ℚ → ℚ)
    (frozen : ℕ → Bool) (swc swcwp lyrRootCo : ℕ → ℚ)
    (maxCondroot swp50 shapeCond : ℚ) (nlyrs : ℕ) :
    ((List.range nlyrs).map
      (hydredRowSum nlyrs (hydredMatPre swpf powe frozen swc swcwp lyrRootCo
        maxCondroot swp50 shapeCond nlyrs))).sum = 0
    ∧ - hydredRowSum nlyrs (hydredMatScaled swpf powe frozen swc swcwp
        lyrRootCo maxCondroot swp50 shapeCond nlyrs) (nlyrs - 1)
      ≤ max 0 (swc (nlyrs - 1) - swcwp (nlyrs - 1)) := by
  constructor
  · -- total flux is zero by antisymmetry
    have hanti := hydredMatPre_antisymm swpf powe frozen swc swcwp lyrRootCo
      maxCondroot swp50 shapeCond nlyrs
    rw [listRangeSum]
    have hrow : ∀ i, hydredRowSum nlyrs (hydredMatPre swpf powe frozen swc
        swcwp lyrRootCo maxCondroot swp50 shapeCond nlyrs) i
        = ∑ j in Finset.range nlyrs, hydredMatPre swpf powe frozen swc swcwp
            lyrRootCo maxCondroot swp50 shapeCond nlyrs i j := by
      intro i
      rw [hydredRowSum, listRangeSum]
    simp only [hrow]
    set m := hydredMatPre swpf powe frozen swc swcwp lyrRootCo maxCondroot
      swp50 shapeCond nlyrs with hm
    have h1 : ∑ i in Finset.range nlyrs, ∑ j in Finset.range nlyrs, m i j
        = ∑ i in Finset.range nlyrs, ∑ j in Finset.range nlyrs, -(m j i) :=
      Finset.sum_congr rfl (fun i _ =>
        Finset.sum_congr rfl (fun j _ => hanti i j))
    have h2 : ∑ i in Finset.range nlyrs, ∑ j in Finset.range nlyrs, -(m j i)
        = - ∑ i in Finset.range nlyrs, ∑ j in Finset.range nlyrs, m j i := by
      simp
    have h3 : ∑ i in Finset.range nlyrs, ∑ j in Finset.range nlyrs, m j i
        = ∑ j in Finset.range nlyrs, ∑ i in Finset.range nlyrs, m j i :=
      Finset.sum_comm
    have h4 := h1.trans (h2.trans (by rw [h3]))
    linarith
  · -- last-row cap
    cases nlyrs with
    | zero =>
      simp [hydredRowSum]
    | succ nm =>
      rw [hydredMatScaled, List.range_succ, List.foldl_append,
        List.foldl_cons, List.foldl_nil]
      set M := List.foldl (hydredScaleStep swc swcwp (nm+1))
        (hydredMatPre swpf powe frozen swc swcwp lyrRootCo maxCondroot swp50
          shapeCond (nm+1)) (List.range nm) with hM
      have hdiag : M nm nm = 0 :=
        hydredScale_diag_inv swc swcwp (nm+1) (List.range nm) _
          (hydredMatPre_diag swpf powe frozen swc swcwp lyrRootCo maxCondroot
            swp50 shapeCond (nm+1)) nm
      have hsimp : nm + 1 - 1 = nm := Nat.succ_sub_one nm
      rw [hsimp]
      simp only [hydredScaleStep]
      split
      · next hc =>
        -- the row was rescaled to exactly its available water
        have hpos : 0 < - hydredRowSum (nm+1) M nm :=
          lt_of_le_of_lt (le_max_left 0 (swc nm - swcwp nm)) hc.2
        have hrow : hydredRowSum (nm+1)
            (fun a b => (if a = nm then max 0 (swc nm - swcwp nm)
                / -hydredRowSum (nm+1) M nm else 1)
              * (if b = nm then max 0 (swc nm - swcwp nm)
                / -hydredRowSum (nm+1) M nm else 1) * M a b) nm
            = max 0 (swc nm - swcwp nm) / -hydredRowSum (nm+1) M nm
              * hydredRowSum (nm+1) M nm := by
          rw [hydredRowSum, hydredRowSum, listRangeSum, listRangeSum,
            Finset.mul_sum]
          refine Finset.sum_congr rfl ?_
          intro j _
          dsimp only
          by_cases hj : j = nm
          · subst hj
            rw [hdiag, if_pos rfl]
            ring
          · rw [if_pos rfl, if_neg hj]
            ring
        rw [hrow, div_neg_mul_self _ _ (hc.1)]
        rw [neg_neg]
      · next hc =>
        push_neg at hc
        rcases le_or_lt 0 (hydredRowSum (nm+1) M nm) with h | h
        · have : - hydredRowSum (nm+1) M nm ≤ 0 := by linarith
          exact le_trans this (le_max_left _ _)
        · exact hc h

/-- Contents of the C4 counterexample profile (4 layers). -/
def c4Swc : ℕ → ℚ :=
  fun i => if i = 0 then 5 else if i = 1 then 4 else if i = 2 then 10 else 2

/-- Wilting points of the C4 counterexample profile. -/
def c4Wp : ℕ → ℚ :=
  fun i => if i = 0 then 1 else if i = 1 then 3 else if i = 2 then 1 else 2

/-- Soil-water-potential function of the C4 counterexample. -/
def c4Swpf : ℕ → ℚ → ℚ :=
  fun i y => if i = 1 then (if 4 ≤ y then 4 else 10)
    else if i = 2 then 1 else if i = 3 then 6 else 7

/-- Counterexample to C4 as stated: after the available-water scaling, layer
1 of this profile loses 3 units while its available water is only 1.  Layer
1's row is at its cap when checked, but the later rescaling of layer 3's row
(and column) wipes out layer 1's compensating gain from layer 3, pushing its
net loss past the cap. -/
theorem C4_scaling_counterexample :
    ¬ (- hydredRowSum 4 (hydredMatScaled c4Swpf (fun _ _ => 1)
          (fun _ => false) c4Swc c4Wp (fun _ => 1/2) (48/5) 1 1 4) 1
        ≤ max 0 (c4Swc 1 - c4Wp 1)) := by
  norm_num [hydredMatScaled, hydredScaleStep, hydredRowSum, hydredMatPre,
    hydredPair, relCondroot, c4Swpf, c4Swc, c4Wp, List.range_succ]

/- ====================== Theorem: C8 ====================== -/

/-- C8 (amended): when theMaxDepth is shallower than the cumulative profile
depth, `soil_temperature_init` raises the fatal flag and returns early —
but only AFTER zero-initialising the grid arrays and computing
depths/depthsR, so the temperature-grid arrays do NOT keep their prior
values: fcR, wpR, bDensityR, oldsTempR and the correspondence matrix are
left zeroed (never filled), and depths/depthsR hold the freshly computed
profile and grid depths. -/
theorem C8_init_fatal_early_return (itp : ℚ → ℚ → ℚ → ℚ → ℚ → ℚ)
    (bDensity width oldsTemp fc wp : ℕ → ℚ) (meanAirTemp deltaX
    theMaxDepth : ℚ) (nlyrs nRgr : ℕ) (st out : STGrid)
    (hn : 0 < nlyrs)
    (hdep : theMaxDepth < ((List.range nlyrs).map width).sum)
    (hout : out = soil_temperature_init itp bDensity width oldsTemp
      meanAirTemp nlyrs fc wp deltaX theMaxDepth nRgr st) :
    out.soil_temp_error = true
    ∧ out.soil_temp_init = true
    ∧ (∀ i, i < nRgr + 1 → out.fcR i = 0 ∧ out.wpR i = 0
        ∧ out.bDensityR i = 0 ∧ out.oldsTempR i = 0)
    ∧ (∀ i j, i < nRgr + 1 → j < nlyrs + 1 → out.tlyrs_by_slyrs i j = 0)
    ∧ (∀ j, j < nlyrs + 1 →
        out.depths j = ((List.range (j + 1)).map width).sum)
    ∧ (∀ i, i < nRgr + 1 → out.depthsR i = ((i : ℚ) + 1) * deltaX) := by
  have hidx : nlyrs - 1 < nlyrs + 1 := by omega
  have hrange : nlyrs - 1 + 1 = nlyrs := by omega
  have hguard : theMaxDepth < (if nlyrs - 1 < nlyrs + 1
      then ((List.range (nlyrs - 1 + 1)).map width).sum
      else st.depths (nlyrs - 1)) := by
    rw [if_pos hidx, hrange]
    exact hdep
  rw [soil_temperature_init] at hout
  simp only [if_pos hguard] at hout
  subst hout
  refine ⟨rfl, rfl, ?_, ?_, ?_, ?_⟩
  · intro i hi
    simp [zeroUpTo, hi]
  · intro i j hi hj
    simp [zeroBlock, hi, hj]
  · intro j hj
    simp [hj]
  · intro i hi
    simp [hi]

/-- Witness for C8 at a concrete input (one 10 cm layer, maximum depth 5). -/
theorem C8_init_fatal_early_return_witness :
    (0 < 1) ∧ ((5:ℚ) < ((List.range 1).map (fun _ => (10:ℚ))).sum)
    ∧ ((soil_temperature_init (fun _ _ _ _ _ => 0) (fun _ => 1)
        (fun _ => 10) (fun _ => 0) 0 1 (fun _ => 2) (fun _ => 1) 15 5 1
        ⟨fun _ _ => 9, fun _ => 9, fun _ => 9, fun _ => 7, fun _ => 7,
         fun _ => 7, fun _ => 7, fun _ => 7, fun _ => false, false, false,
         false⟩).soil_temp_error = true
      ∧ (soil_temperature_init (fun _ _ _ _ _ => 0) (fun _ => 1)
          (fun _ => 10) (fun _ => 0) 0 1 (fun _ => 2) (fun _ => 1) 15 5 1
          ⟨fun _ _ => 9, fun _ => 9, fun _ => 9, fun _ => 7, fun _ => 7,
           fun _ => 7, fun _ => 7, fun _ => 7, fun _ => false, false, false,
           false⟩).soil_temp_init = true
      ∧ (∀ i, i < 1 + 1 →
          (soil_temperature_init (fun _ _ _ _ _ => 0) (fun _ => 1)
            (fun _ => 10) (fun _ => 0) 0 1 (fun _ => 2) (fun _ => 1) 15 5 1
            ⟨fun _ _ => 9, fun _ => 9, fun _ => 9, fun _ => 7, fun _ => 7,
             fun _ => 7, fun _ => 7, fun _ => 7, fun _ => false, false,
             false, false⟩).fcR i = 0
        ∧ (soil_temperature_init (fun _ _ _ _ _ => 0) (fun _ => 1)
            (fun _ => 10) (fun _ => 0) 0 1 (fun _ => 2) (fun _ => 1) 15 5 1
            ⟨fun _ _ => 9, fun _ => 9, fun _ => 9, fun _ => 7, fun _ => 7,
             fun _ => 7, fun _ => 7, fun _ => 7, fun _ => false, false,
             false, false⟩).wpR i = 0
        ∧ (soil_temperature_init (fun _ _ _ _ _ => 0) (fun _ => 1)
            (fun _ => 10) (fun _ => 0) 0 1 (fun _ => 2) (fun _ => 1) 15 5 1
            ⟨fun _ _ => 9, fun _ => 9, fun _ => 9, fun _ => 7, fun _ => 7,
             fun _ => 7, fun _ => 7, fun _ => 7, fun _ => false, false,
             false, false⟩).bDensityR i = 0
        ∧ (soil_temperature_init (fun _ _ _ _ _ => 0) (fun _ => 1)
            (fun _ => 10) (fun _ => 0) 0 1 (fun _ => 2) (fun _ => 1) 15 5 1
            ⟨fun _ _ => 9, fun _ => 9, fun _ => 9, fun _ => 7, fun _ => 7,
             fun _ => 7, fun _ => 7, fun _ => 7, fun _ => false, false,
             false, false⟩).oldsTempR i = 0)
      ∧ (∀ i j, i < 1 + 1 → j < 1 + 1 →
          (soil_temperature_init (fun _ _ _ _ _ => 0) (fun _ => 1)
            (fun _ => 10) (fun _ => 0) 0 1 (fun _ => 2) (fun _ => 1) 15 5 1
            ⟨fun _ _ => 9, fun _ => 9, fun _ => 9, fun _ => 7, fun _ => 7,
             fun _ => 7, fun _ => 7, fun _ => 7, fun _ => false, false,
             false, false⟩).tlyrs_by_slyrs i j = 0)
      ∧ (∀ j, j < 1 + 1 →
          (soil_temperature_init (fun _ _ _ _ _ => 0) (fun _ => 1)
            (fun _ => 10) (fun _ => 0) 0 1 (fun _ => 2) (fun _ => 1) 15 5 1
            ⟨fun _ _ => 9, fun _ => 9, fun _ => 9, fun _ => 7, fun _ => 7,
             fun _ => 7, fun _ => 7, fun _ => 7, fun _ => false, false,
             false, false⟩).depths j
          = ((List.range (j + 1)).map (fun _ => (10:ℚ))).sum)
      ∧ (∀ i, i < 1 + 1 →
          (soil_temperature_init (fun _ _ _ _ _ => 0) (fun _ => 1)
            (fun _ => 10) (fun _ => 0) 0 1 (fun _ => 2) (fun _ => 1) 15 5 1
            ⟨fun _ _ => 9, fun _ => 9, fun _ => 9, fun _ => 7, fun _ => 7,
             fun _ => 7, fun _ => 7, fun _ => 7, fun _ => false, false,
             false, false⟩).depthsR i = ((i : ℚ) + 1) * 15)) :=
  ⟨by decide, by norm_num [List.range_succ],
   C8_init_fatal_early_return (fun _ _ _ _ _ => 0) (fun _ => 1) (fun _ => 10)
     (fun _ => 0) (fun _ => 2) (fun _ => 1) 0 15 5 1 1
     ⟨fun _ _ => 9, fun _ => 9, fun _ => 9, fun _ => 7, fun _ => 7,
      fun _ => 7, fun _ => 7, fun _ => 7, fun _ => false, false, false,
      false⟩ _ (by decide) (by norm_num [List.range_succ]) rfl⟩

/-- Counterexample to C8 as stated: on the same shallow-maximum-depth input,
the fatal flag is raised but fcR[0] is zeroed, not kept at its prior value
7 — the zero-initialisation and depth computation precede the depth check. -/
theorem C8_init_mutates_grid_counterexample :
    ((5:ℚ) < 10)
    ∧ (soil_temperature_init (fun _ _ _ _ _ => 0) (fun _ => 1) (fun _ => 10)
        (fun _ => 0) 0 1 (fun _ => 2) (fun _ => 1) 15 5 1
        ⟨fun _ _ => 9, fun _ => 9, fun _ => 9, fun _ => 7, fun _ => 7,
         fun _ => 7, fun _ => 7, fun _ => 7, fun _ => false, false, false,
         false⟩).soil_temp_error = true
    ∧ (soil_temperature_init (fun _ _ _ _ _ => 0) (fun _ => 1) (fun _ => 10)
        (fun _ => 0) 0 1 (fun _ => 2) (fun _ => 1) 15 5 1
        ⟨fun _ _ => 9, fun _ => 9, fun _ => 9, fun _ => 7, fun _ => 7,
         fun _ => 7, fun _ => 7, fun _ => 7, fun _ => false, false, false,
         false⟩).fcR 0 = 0
    ∧ ¬ ((soil_temperature_init (fun _ _ _ _ _ => 0) (fun _ => 1)
        (fun _ => 10) (fun _ => 0) 0 1 (fun _ => 2) (fun _ => 1) 15 5 1
        ⟨fun _ _ => 9, fun _ => 9, fun _ => 9, fun _ => 7, fun _ => 7,
         fun _ => 7, fun _ => 7, fun _ => 7, fun _ => false, false, false,
         false⟩).fcR 0 = 7) := by
  refine ⟨by norm_num, ?_, ?_, ?_⟩ <;>
    norm_num [soil_temperature_init, zeroUpTo, zeroBlock, List.range_succ]

/- ====================== Theorem: C7 ====================== -/

/-- Splitting a fold whose state is a pair of an accumulator and an OR-ed
flag, when the flag update does not depend on the accumulator. -/
theorem foldl_pair_split {α : Type} (g : (ℕ → ℚ) → α → (ℕ → ℚ))
    (h : α → Bool) :
    ∀ (l : List α) (a : ℕ → ℚ) (b : Bool),
      l.foldl (fun p x => (g p.1 x, p.2 || h x)) (a, b)
        = (l.foldl g a, b || l.any h) := by
  intro l
  induction l with
  | nil => intro a b; simp
  | cons x t ih =>
    intro a b
    rw [List.foldl_cons, ih, List.foldl_cons, List.any_cons, Bool.or_assoc]

/-- The grid temperatures computed by the heat-equation loop, independent of
the error flag. -/
def heatTemps (vwcR wpR fcR bDensityR oldsTempR : ℕ → ℚ)
    (csParam1 csParam2 shParam deltaX : ℚ) (nRgr : ℕ)
    (sTempR0 : ℕ → ℚ) : ℕ → ℚ :=
  ((List.range nRgr).map (· + 1)).foldl
    (fun f i => upd f i (oldsTempR i
      + stabilityParts vwcR wpR fcR bDensityR csParam1 csParam2 shParam
          deltaX (i - 1)
        * (f (i - 1) - 2 * oldsTempR i + oldsTempR (i + 1)))) sTempR0

/-- The heat loop returns exactly the pure temperatures together with the
flag OR-ed with the per-band stability check parts > 1. -/
theorem heatLoop_spec (vwcR wpR fcR bDensityR oldsTempR : ℕ → ℚ)
    (csParam1 csParam2 shParam deltaX : ℚ) (nRgr : ℕ)
    (sTempR0 : ℕ → ℚ) (err0 : Bool) :
    heatLoop vwcR wpR fcR bDensityR oldsTempR csParam1 csParam2 shParam
      deltaX nRgr sTempR0 err0
      = (heatTemps vwcR wpR fcR bDensityR oldsTempR csParam1 csParam2 shParam
          deltaX nRgr sTempR0,
         err0 || (List.range nRgr).any (fun k =>
           decide (stabilityParts vwcR wpR fcR bDensityR csParam1 csParam2
             shParam deltaX k > 1))) := by
  rw [heatLoop, heatTemps]
  rw [List.foldl_ext
    (heatStep vwcR wpR fcR bDensityR oldsTempR csParam1 csParam2 shParam deltaX)
    (fun p x => ((fun f i => upd f i (oldsTempR i
      + stabilityParts vwcR wpR fcR bDensityR csParam1 csParam2 shParam
          deltaX (i - 1)
        * (f (i - 1) - 2 * oldsTempR i + oldsTempR (i + 1)))) p.1 x,
      p.2 || (fun i => decide (stabilityParts vwcR wpR fcR bDensityR csParam1
        csParam2 shParam deltaX (i - 1) > 1)) x))
    (sTempR0, err0) (fun p x _ => rfl)]
  rw [foldl_pair_split
    (fun f i => upd f i (oldsTempR i
      + stabilityParts vwcR wpR fcR bDensityR csParam1 csParam2 shParam
          deltaX (i - 1)
        * (f (i - 1) - 2 * oldsTempR i + oldsTempR (i + 1))))
    (fun i => decide (stabilityParts vwcR wpR fcR bDensityR csParam1
      csParam2 shParam deltaX (i - 1) > 1))]
  congr 1
  rw [List.any_map]
  congr 1

/-- The adjust function reports that no temperature change was made. -/
theorem adjust_Tsoil_snd (nlyrs : ℕ) (st : STGrid) :
    (adjust_Tsoil_by_freezing_and_thawing nlyrs st).2 = false := by
  unfold adjust_Tsoil_by_freezing_and_thawing
  by_cases hfp : st.fusion_pool_init <;> simp [hfp]

/-- The adjust function preserves the error flag. -/
theorem adjust_Tsoil_err (nlyrs : ℕ) (st : STGrid) :
    (adjust_Tsoil_by_freezing_and_thawing nlyrs st).1.soil_temp_error
      = st.soil_temp_error := by
  unfold adjust_Tsoil_by_freezing_and_thawing
  by_cases hfp : st.fusion_pool_init <;> simp [hfp]

/-- The adjust function preserves the stored grid temperatures. -/
theorem adjust_Tsoil_old (nlyrs : ℕ) (st : STGrid) :
    (adjust_Tsoil_by_freezing_and_thawing nlyrs st).1.oldsTempR
      = st.oldsTempR := by
  unfold adjust_Tsoil_by_freezing_and_thawing
  by_cases hfp : st.fusion_pool_init <;> simp [hfp]

/-- Surface temperature of the day step. -/
def dayT1 (inp : SoilTempIn) : ℚ :=
  surfaceTempT1 inp.snowdepth inp.airTemp inp.snow inp.pet inp.aet
    inp.biomass inp.bmLimiter inp.t1Param1 inp.t1Param2 inp.t1Param3

/-- Volumetric water content projected onto the temperature grid for the
day step. -/
def dayVwcR (inp : SoilTempIn) (st : STGrid) : ℕ → ℚ :=
  lyrSoil_to_lyrTemp st.tlyrs_by_slyrs inp.nlyrs inp.width
    (fun i => inp.swc i / inp.width i) inp.nRgr inp.deltaX (fun _ => 0)

/-- The day's new grid temperature profile: the heat-loop temperatures with
surface value T1 and bottom boundary meanAirTemp. -/
def dayNewTempR (inp : SoilTempIn) (st : STGrid) : ℕ → ℚ :=
  upd (heatTemps (dayVwcR inp st) st.wpR st.fcR st.bDensityR st.oldsTempR
    inp.csParam1 inp.csParam2 inp.shParam inp.deltaX inp.nRgr
    (upd (fun _ => 0) 0 (dayT1 inp))) (inp.nRgr + 1) inp.meanAirTemp

/-- C7: on an initialised site, the daily `soil_temperature` step sets the
non-fatal error flag exactly when some grid band's stability coefficient
parts exceeds 1 (OR-ed onto the incoming flag, so the flag is not set by
this step when no band exceeds 1), and the computation continues regardless:
the day's new grid temperatures dayNewTempR are computed, stored in
oldsTempR for the next day, and back-projected onto the soil layers —
expressions that do not depend on the error flag. -/
theorem C7_stability_flag_nonfatal (itp : ℚ → ℚ → ℚ → ℚ → ℚ → ℚ)
    (inp : SoilTempIn) (sTemp0 : ℕ → ℚ) (sfT : ℚ × ℚ) (st : STGrid)
    (hinit : st.soil_temp_init = true) :
    (soil_temperature itp inp sTemp0 sfT st).1.soil_temp_error
        = (st.soil_temp_error || (List.range inp.nRgr).any (fun k =>
            decide (stabilityParts (dayVwcR inp st) st.wpR st.fcR
              st.bDensityR inp.csParam1 inp.csParam2 inp.shParam inp.deltaX
              k > 1)))
    ∧ (∀ i, i ≤ inp.nRgr + 1 →
        (soil_temperature itp inp sTemp0 sfT st).1.oldsTempR i
          = dayNewTempR inp st i)
    ∧ (soil_temperature itp inp sTemp0 sfT st).2.1
        = lyrTemp_to_lyrSoil_temperature itp st.tlyrs_by_slyrs inp.nRgr
            st.depthsR (dayNewTempR inp st) inp.nlyrs st.depths inp.width
            sTemp0 := by
  simp only [soil_temperature, hinit, eq_self_iff_true, if_true,
    heatLoop_spec, adjust_Tsoil_snd, adjust_Tsoil_err, adjust_Tsoil_old,
    dayNewTempR, dayVwcR, dayT1, Bool.false_eq_true, if_false]
  refine ⟨trivial, ?_, trivial⟩
  intro i hi
  rw [if_pos hi]

/-- Concrete daily inputs for the C7 witness. -/
def c7Inp : SoilTempIn :=
  { airTemp := 2, pet := 0, aet := 0, biomass := 100, snowdepth := 0,
    snow := 0, meanAirTemp := 3, bmLimiter := 300, t1Param1 := 15,
    t1Param2 := -4, t1Param3 := 600, csParam1 := 1, csParam2 := 0,
    shParam := 0, deltaX := 15, theMaxDepth := 180, nlyrs := 1, nRgr := 1,
    swc := fun _ => 1, swc_sat := fun _ => 5, bDensity := fun _ => 1,
    width := fun _ => 10, oldsTemp := fun _ => 2, fc := fun _ => 3,
    wp := fun _ => 1 }

/-- Concrete initialised module state for the C7 witness. -/
def c7St : STGrid :=
  ⟨fun _ _ => 1, fun _ => 10, fun i => ((i : ℚ) + 1) * 15, fun _ => 3,
   fun _ => 1, fun _ => 1, fun _ => 2, fun _ => 0, fun _ => false,
   false, true, true⟩

/-- Witness for C7 at a concrete initialised one-layer site. -/
theorem C7_stability_flag_nonfatal_witness :
    c7St.soil_temp_init = true
    ∧ ((soil_temperature (fun _ _ _ _ _ => 0) c7Inp (fun _ => 0) (0, 0)
          c7St).1.soil_temp_error
        = (c7St.soil_temp_error || (List.range c7Inp.nRgr).any (fun k =>
            decide (stabilityParts (dayVwcR c7Inp c7St) c7St.wpR c7St.fcR
              c7St.bDensityR c7Inp.csParam1 c7Inp.csParam2 c7Inp.shParam
              c7Inp.deltaX k > 1)))
      ∧ (∀ i, i ≤ c7Inp.nRgr + 1 →
          (soil_temperature (fun _ _ _ _ _ => 0) c7Inp (fun _ => 0) (0, 0)
            c7St).1.oldsTempR i = dayNewTempR c7Inp c7St i)
      ∧ (soil_temperature (fun _ _ _ _ _ => 0) c7Inp (fun _ => 0) (0, 0)
          c7St).2.1
        = lyrTemp_to_lyrSoil_temperature (fun _ _ _ _ _ => 0)
            c7St.tlyrs_by_slyrs c7Inp.nRgr c7St.depthsR
            (dayNewTempR c7Inp c7St) c7Inp.nlyrs c7St.depths c7Inp.width
            (fun _ => 0)) :=
  ⟨rfl, C7_stability_flag_nonfatal (fun _ _ _ _ _ => 0) c7Inp (fun _ => 0)
    (0, 0) c7St rfl⟩

end SoilWat
